import Mathlib

/-!
# libeventmc: command correlation and dispatch (memcached_api.c)

A shallow embedding of the dispatcher of libeventmc.  Pointers to records are
replaced by the records themselves, function pointers and `void *` batons by
natural-number identities (`none` stands for `NULL`), byte buffers by lists of
bytes.  The tree of pending commands is the red-black tree of bsd_tree.h with
its colours, its rotations and its descent by the sign of the comparator, but
without parent links.  Calls that leave the repository (the transport of
memcached_server.h, libc, the caller's completion callbacks) are recorded in
an event trace; what they answer is supplied by an environment record.  A completion callback is
caller code: its invocation is recorded with its arguments and it is taken not
to re-enter the client while it runs.
-/

namespace Libeventmc

/-! ## Machine integers and platform constants -/

/-- Number of values of a `uint32_t`. -/
def UINT32_SIZE : Nat := 4294967296

/-- Conversion to `int` of a 32-bit unsigned difference: the mathematical value
`z` is reduced modulo 2^32 (unsigned arithmetic) and the result is read as a
two's complement `int`. -/
def uint32_to_int (z : Int) : Int :=
  let m := z % 4294967296
  if m < 2147483648 then m else m - 4294967296

/-- Value of `AF_INET` (Linux). -/
def AF_INET : Nat := 2

/-- Value of `AF_INET6` (Linux). -/
def AF_INET6 : Nat := 10

/-- Value of `EINVAL` (Linux). -/
def EINVAL : Nat := 22

/-- Value of `EBADSLT` (Linux). -/
def EBADSLT : Nat := 57

/-- Value of `EAFNOSUPPORT` (Linux). -/
def EAFNOSUPPORT : Nat := 97

/-! ## Data model -/

/-- Modelled from the spec: `enum memcached_cmd` is declared in
memcached_server.h, which is not under src.  The five command kinds that
memcached_api.c names are constructors of their own; every other value of the
enumeration is `MEMCACHED_CMD_OTHER code`. -/
inductive memcached_cmd
  | MEMCACHED_CMD_GET
  | MEMCACHED_CMD_SET
  | MEMCACHED_CMD_ADD
  | MEMCACHED_CMD_REPLACE
  | MEMCACHED_CMD_GETK
  | MEMCACHED_CMD_OTHER (code : Nat)
  deriving DecidableEq

/-- Modelled from the spec: `struct memcached_msg` is declared in
memcached_server.h, which is not under src.  The fields are those that
memcached_api.c reads or writes; `opaque_id` is the C field `opaque`, the
32-bit correlation token, and `status` is an `enum memcached_result`. -/
structure memcached_msg where
  opcode : memcached_cmd
  key : List Nat
  key_len : Nat
  extra : List Nat
  extra_len : Nat
  cas : Nat
  data : List Nat
  data_len : Nat
  opaque_id : Nat
  status : Nat
  deriving DecidableEq

/-- The record `struct pending_cmd`.  `opaque_id` is the C field `opaque`;
`callbacks` is the union of callback pointers, `none` being `NULL`. -/
structure pending_cmd where
  opaque_id : Nat
  sent_command : memcached_cmd
  callbacks : Option Nat
  callback_data : Nat
  deriving DecidableEq

/-- The colour of a node: `RB_BLACK` and `RB_RED` of bsd_tree.h. -/
inductive rb_color
  | RB_BLACK
  | RB_RED
  deriving DecidableEq

/-- Modelled from the spec: `RB_HEAD(rb_cmds, pending_cmd)` and the macros
generated by `RB_GENERATE_STATIC(rb_cmds, pending_cmd, e_tree, cmp_cmd)` come
from bsd_tree.h, which is not under src.  The spec calls the index a balanced
tree keyed by the correlation token; the macros are those of the red-black
tree of the BSD header `sys/tree.h`, which descends by the sign of the
comparator, and the definitions below follow the functions it generates.  A
tree is `nil` (the C `NULL`) or a node with its colour, left subtree, record
and right subtree; parent links are not stored.  The colouring rules of a
red-black tree are not part of the type: the macros keep them, and on a tree
that breaks them, where the C code would read through `NULL` (the parent of a
red root, a missing sibling), the loops of the embedding end. -/
inductive rb_cmds
  | nil
  | node (color : rb_color) (left : rb_cmds) (elm : pending_cmd) (right : rb_cmds)
  deriving DecidableEq

/-- The records of the tree from left to right, the order in which `RB_MIN`
and `RB_NEXT` visit them. -/
def rb_cmds.toList : rb_cmds → List pending_cmd
  | rb_cmds.nil => []
  | rb_cmds.node _ l x r => l.toList ++ x :: r.toList

/-- A socket address as seen through the union of `struct memcached_host`:
`sin_port`, `s_addr` are the `addr_4` view and `sin6_port`, `u6_addr32_k` the
`addr_6` view.  Only the view that belongs to `sa_family` is ever read. -/
structure sockaddr where
  sa_family : Nat
  sin_port : Nat
  s_addr : Nat
  sin6_port : Nat
  u6_addr32_0 : Nat
  u6_addr32_1 : Nat
  u6_addr32_2 : Nat
  u6_addr32_3 : Nat
  deriving DecidableEq

/-- The record `struct memcached_host`; `server_conn = none` is `NULL`. -/
structure memcached_host where
  sockaddr : sockaddr
  server_conn : Option Nat
  deriving DecidableEq

/-- The entry that `calloc` produces: all fields zero. -/
instance : Inhabited memcached_host := ⟨⟨⟨0, 0, 0, 0, 0, 0, 0, 0⟩, none⟩⟩

/-- The type `memcached_hash_func`: key, key length, hosts, number of hosts. -/
abbrev memcached_hash_func := List Nat → Int → List memcached_host → Int → Int

/-- The type `memcached_keytrans_func`: on success (return value 0) the new
key and its length, `none` when it returns -1. -/
abbrev memcached_keytrans_func := List Nat → Nat → Option (List Nat × Nat)

/-- The record `struct memcached_api`.  The pair `host_list`, `num_host` of
the source is the list `host_list`; `cb_func_hash` is never `NULL` in a client
that `memcached_api_init` returned; `pending_cmd_list` is the head of the tree
of pending commands. -/
structure memcached_api where
  conn_type : Nat
  event_base : Nat
  cb_func_hash : memcached_hash_func
  cb_func_keytrans : Option memcached_keytrans_func
  sequence_id : Nat
  host_list : List memcached_host
  user_data : Nat
  pending_cmd_list : rb_cmds

/-- The field `num_host`: the number of entries of `host_list`. -/
def memcached_api.num_host (api : memcached_api) : Int := (api.host_list.length : Int)

/-- What a call does outside the client state: calls into the transport,
invocations of completion callbacks, and releases of memory.  The first
argument of a callback, the client itself, is left out. -/
inductive Event
  | callback_get (f : Nat) (status : Nat) (key : List Nat) (key_len : Nat) (data : List Nat)
      (data_len : Nat) (cas : Nat) (api_baton : Nat) (cmd_baton : Nat)
  | callback_add (f : Nat) (status : Nat) (cas : Nat) (api_baton : Nat) (cmd_baton : Nat)
  | memcached_init (event_base : Nat) (addr : sockaddr) (conn_type : Nat)
  | memcached_send (conn : Nat) (msg : memcached_msg)
  | memcached_free (conn : Option Nat)
  | free_cmd (cmd : pending_cmd)
  | free_key (key : List Nat)
  | free_server (server : Option Nat)
  | free_host_list
  | free_api
  deriving DecidableEq

/-- What a call that returns leaves behind: its return value, the client
state, the trace of events, and the value the repository's code assigned to
`errno` (`none` when it assigned nothing). -/
structure Result (α : Type) where
  ret : α
  api : memcached_api
  events : List Event
  errno : Option Nat

/-- Modelled from the spec: the macro `CORE_ME` is defined in util.h, which is
not under src.  The spec calls it the fatal macro used for invariant
violations: the call does not return.  `core_me msg events` carries the
message and the events that happened before the failure. -/
inductive Outcome (α : Type)
  | returned (r : Result α)
  | core_me (msg : String) (events : List Event)

/-- What the world outside the client answers during one call: whether
`calloc` of a pending record succeeds, and the results of the transport's
`memcached_init` and `memcached_send`. -/
structure Env where
  calloc_ok : Bool
  memcached_init : Nat → sockaddr → Nat → Option Nat
  memcached_send : Nat → memcached_msg → Int

/-! ## The tree of pending commands -/

/-- The comparator `cmp_cmd`: the unsigned 32-bit difference of the two
tokens, converted to `int`. -/
def cmp_cmd (c1 c2 : pending_cmd) : Int :=
  uint32_to_int ((c1.opaque_id : Int) - (c2.opaque_id : Int))

/-- The macro `RB_INIT`: the empty tree. -/
def RB_INIT : rb_cmds := rb_cmds.nil

/-- Modelled from the spec: `RB_FIND` of bsd_tree.h (not under src): from the
root, go left when the comparator is negative, right when it is positive, and
return the node at which it is 0; `NULL` when the descent leaves the tree. -/
def RB_FIND : rb_cmds → pending_cmd → Option pending_cmd
  | rb_cmds.nil, _ => none
  | rb_cmds.node _ l tmp r, elm =>
    if cmp_cmd elm tmp < 0 then RB_FIND l elm
    else if cmp_cmd elm tmp > 0 then RB_FIND r elm
    else some tmp

/-- The test `tmp && RB_COLOR(tmp) == RB_RED`. -/
def rb_is_red : rb_cmds → Bool
  | rb_cmds.node rb_color.RB_RED _ _ _ => true
  | _ => false

/-- The test `tmp == NULL || RB_COLOR(tmp) == RB_BLACK`. -/
def rb_is_black (t : rb_cmds) : Bool := !rb_is_red t

/-- The assignment `RB_COLOR(tmp) = c`, for a node that exists. -/
def rb_set_color (c : rb_color) : rb_cmds → rb_cmds
  | rb_cmds.nil => rb_cmds.nil
  | rb_cmds.node _ l x r => rb_cmds.node c l x r

/-- The macro `RB_ROTATE_LEFT` at the root of a subtree. -/
def RB_ROTATE_LEFT : rb_cmds → rb_cmds
  | rb_cmds.node c a x (rb_cmds.node c1 b y d) => rb_cmds.node c1 (rb_cmds.node c a x b) y d
  | t => t

/-- The macro `RB_ROTATE_RIGHT` at the root of a subtree. -/
def RB_ROTATE_RIGHT : rb_cmds → rb_cmds
  | rb_cmds.node c (rb_cmds.node c1 a x b) y d => rb_cmds.node c1 a x (rb_cmds.node c b y d)
  | t => t

/-- Where the loop of `RB_INSERT_COLOR` stands when the insertion returns from
a subtree: the loop has ended (`done`); its `elm` is the root of the subtree
(`elm`); or the root of the subtree is the red `parent` and `elm` is its left
(`parent_left`) or right (`parent_right`) child. -/
inductive rb_insert_state
  | done
  | elm
  | parent_left
  | parent_right
  deriving DecidableEq

/-- One pass of the loop of `RB_INSERT_COLOR` in the branch
`parent == RB_LEFT(gparent)`: `parent` is red, `tmp` is the uncle. -/
def rb_insert_color_left (parent : rb_cmds) (gparent : pending_cmd) (tmp : rb_cmds)
    (elm_is_right : Bool) : rb_cmds × rb_insert_state :=
  if rb_is_red tmp then
    (rb_cmds.node rb_color.RB_RED (rb_set_color rb_color.RB_BLACK parent) gparent
      (rb_set_color rb_color.RB_BLACK tmp), rb_insert_state.elm)
  else
    let parent1 := if elm_is_right then RB_ROTATE_LEFT parent else parent
    (RB_ROTATE_RIGHT (rb_cmds.node rb_color.RB_RED (rb_set_color rb_color.RB_BLACK parent1)
      gparent tmp), rb_insert_state.done)

/-- One pass of the loop of `RB_INSERT_COLOR` in the branch
`parent == RB_RIGHT(gparent)`. -/
def rb_insert_color_right (tmp : rb_cmds) (gparent : pending_cmd) (parent : rb_cmds)
    (elm_is_left : Bool) : rb_cmds × rb_insert_state :=
  if rb_is_red tmp then
    (rb_cmds.node rb_color.RB_RED (rb_set_color rb_color.RB_BLACK tmp) gparent
      (rb_set_color rb_color.RB_BLACK parent), rb_insert_state.elm)
  else
    let parent1 := if elm_is_left then RB_ROTATE_RIGHT parent else parent
    (RB_ROTATE_LEFT (rb_cmds.node rb_color.RB_RED tmp gparent
      (rb_set_color rb_color.RB_BLACK parent1)), rb_insert_state.done)

/-- The loop of `RB_INSERT_COLOR` seen from the node `y` of colour `c` whose
left subtree `l1` holds the new node. -/
def rb_insert_up_left (c : rb_color) (l1 : rb_cmds) (y : pending_cmd) (r : rb_cmds)
    (st : rb_insert_state) : rb_cmds × rb_insert_state :=
  match st with
  | rb_insert_state.done => (rb_cmds.node c l1 y r, rb_insert_state.done)
  | rb_insert_state.elm =>
    if c = rb_color.RB_RED then (rb_cmds.node c l1 y r, rb_insert_state.parent_left)
    else (rb_cmds.node c l1 y r, rb_insert_state.done)
  | rb_insert_state.parent_left => rb_insert_color_left l1 y r false
  | rb_insert_state.parent_right => rb_insert_color_left l1 y r true

/-- The loop of `RB_INSERT_COLOR` seen from the node `y` of colour `c` whose
right subtree `r1` holds the new node. -/
def rb_insert_up_right (c : rb_color) (l : rb_cmds) (y : pending_cmd) (r1 : rb_cmds)
    (st : rb_insert_state) : rb_cmds × rb_insert_state :=
  match st with
  | rb_insert_state.done => (rb_cmds.node c l y r1, rb_insert_state.done)
  | rb_insert_state.elm =>
    if c = rb_color.RB_RED then (rb_cmds.node c l y r1, rb_insert_state.parent_right)
    else (rb_cmds.node c l y r1, rb_insert_state.done)
  | rb_insert_state.parent_left => rb_insert_color_right l y r1 true
  | rb_insert_state.parent_right => rb_insert_color_right l y r1 false

/-- What the descent of `RB_INSERT` yields below a node: the node that compares
equal (`found`), or the subtree with the new red node linked in and the loop of
`RB_INSERT_COLOR` run as far as this subtree reaches (`inserted`). -/
inductive rb_insert_result
  | found (tmp : pending_cmd)
  | inserted (t : rb_cmds) (st : rb_insert_state)

/-- The descent of `RB_INSERT` with `RB_SET` at the leaf, and on the way back
the loop of `RB_INSERT_COLOR`. -/
def rb_insert_rec (elm : pending_cmd) : rb_cmds → rb_insert_result
  | rb_cmds.nil =>
    rb_insert_result.inserted (rb_cmds.node rb_color.RB_RED rb_cmds.nil elm rb_cmds.nil)
      rb_insert_state.elm
  | rb_cmds.node c l parent r =>
    if cmp_cmd elm parent < 0 then
      match rb_insert_rec elm l with
      | rb_insert_result.found tmp => rb_insert_result.found tmp
      | rb_insert_result.inserted l1 st =>
        rb_insert_result.inserted (rb_insert_up_left c l1 parent r st).1
          (rb_insert_up_left c l1 parent r st).2
    else if cmp_cmd elm parent > 0 then
      match rb_insert_rec elm r with
      | rb_insert_result.found tmp => rb_insert_result.found tmp
      | rb_insert_result.inserted r1 st =>
        rb_insert_result.inserted (rb_insert_up_right c l parent r1 st).1
          (rb_insert_up_right c l parent r1 st).2
    else rb_insert_result.found parent

/-- Modelled from the spec: `RB_INSERT` of bsd_tree.h (not under src).  The
descent is that of `RB_FIND`; a node that compares equal is returned and the
tree is left as it is; otherwise the record is linked in as a red leaf,
`RB_INSERT_COLOR` restores the colouring, the root is made black and the macro
yields `NULL`. -/
def RB_INSERT (head : rb_cmds) (elm : pending_cmd) : rb_cmds × Option pending_cmd :=
  match rb_insert_rec elm head with
  | rb_insert_result.found tmp => (head, some tmp)
  | rb_insert_result.inserted t _ => (rb_set_color rb_color.RB_BLACK t, none)

/-- Where the loop of `RB_REMOVE_COLOR` stands when the removal returns from a
subtree: nothing is left to do (`done`); the loop goes on with its `elm` the
root of the subtree, which may be `NULL` (`elm`); or the loop has ended with
`elm = RB_ROOT(head)`, so that the root is made black at the end (`root`). -/
inductive rb_remove_state
  | done
  | elm
  | root
  deriving DecidableEq

/-- The state in which `RB_REMOVE` leaves the place of a node of colour `c`
that it has unlinked: `RB_REMOVE_COLOR` runs when the colour was black. -/
def rb_unlinked (c : rb_color) : rb_remove_state :=
  if c = rb_color.RB_BLACK then rb_remove_state.elm else rb_remove_state.done

/-- The loop body of `RB_REMOVE_COLOR` in the branch `RB_LEFT(parent) == elm`,
from the test of the children of the sibling `tmp` on; `pc` and `py` are the
colour and the record of `parent`.  When both children of `tmp` are black,
`tmp` becomes red and the loop goes on at `parent`; otherwise the rotations
are made and the loop ends with `elm = RB_ROOT(head)`. -/
def rb_remove_color_left_sibling (pc : rb_color) (elm : rb_cmds) (py : pending_cmd)
    (tmp : rb_cmds) : rb_cmds × rb_remove_state :=
  match tmp with
  | rb_cmds.nil => (rb_cmds.node pc elm py rb_cmds.nil, rb_remove_state.done)
  | rb_cmds.node _ tl te tr =>
    if rb_is_black tl && rb_is_black tr then
      (rb_cmds.node pc elm py (rb_cmds.node rb_color.RB_RED tl te tr), rb_remove_state.elm)
    else
      let tmp1 :=
        if rb_is_black tr then
          RB_ROTATE_RIGHT (rb_cmds.node rb_color.RB_RED (rb_set_color rb_color.RB_BLACK tl) te tr)
        else tmp
      match tmp1 with
      | rb_cmds.nil => (rb_cmds.node pc elm py rb_cmds.nil, rb_remove_state.done)
      | rb_cmds.node _ l1 e1 r1 =>
        (RB_ROTATE_LEFT (rb_cmds.node rb_color.RB_BLACK elm py
          (rb_cmds.node pc l1 e1 (rb_set_color rb_color.RB_BLACK r1))), rb_remove_state.root)

/-- The loop body of `RB_REMOVE_COLOR` in the branch `RB_RIGHT(parent) == elm`,
from the test of the children of the sibling `tmp` on. -/
def rb_remove_color_right_sibling (pc : rb_color) (tmp : rb_cmds) (py : pending_cmd)
    (elm : rb_cmds) : rb_cmds × rb_remove_state :=
  match tmp with
  | rb_cmds.nil => (rb_cmds.node pc rb_cmds.nil py elm, rb_remove_state.done)
  | rb_cmds.node _ tl te tr =>
    if rb_is_black tl && rb_is_black tr then
      (rb_cmds.node pc (rb_cmds.node rb_color.RB_RED tl te tr) py elm, rb_remove_state.elm)
    else
      let tmp1 :=
        if rb_is_black tl then
          RB_ROTATE_LEFT (rb_cmds.node rb_color.RB_RED tl te (rb_set_color rb_color.RB_BLACK tr))
        else tmp
      match tmp1 with
      | rb_cmds.nil => (rb_cmds.node pc rb_cmds.nil py elm, rb_remove_state.done)
      | rb_cmds.node _ l1 e1 r1 =>
        (RB_ROTATE_RIGHT (rb_cmds.node rb_color.RB_BLACK
          (rb_cmds.node pc (rb_set_color rb_color.RB_BLACK l1) e1 r1) py elm),
          rb_remove_state.root)

/-- One pass of the loop of `RB_REMOVE_COLOR` at `parent` (colour `pc`, record
`py`) whose left child is the loop's `elm`, with the sibling `tmp`. -/
def rb_remove_color_left (pc : rb_color) (elm : rb_cmds) (py : pending_cmd) (tmp : rb_cmds) :
    rb_cmds × rb_remove_state :=
  if rb_is_red elm then
    (rb_cmds.node pc (rb_set_color rb_color.RB_BLACK elm) py tmp, rb_remove_state.done)
  else
    match tmp with
    | rb_cmds.node rb_color.RB_RED tl te tr =>
      match rb_remove_color_left_sibling rb_color.RB_RED elm py tl with
      | (sub, rb_remove_state.elm) =>
        (rb_cmds.node rb_color.RB_BLACK (rb_set_color rb_color.RB_BLACK sub) te tr,
          rb_remove_state.done)
      | (sub, st) => (rb_cmds.node rb_color.RB_BLACK sub te tr, st)
    | _ => rb_remove_color_left_sibling pc elm py tmp

/-- One pass of the loop of `RB_REMOVE_COLOR` at `parent` whose right child is
the loop's `elm`, with the sibling `tmp`. -/
def rb_remove_color_right (pc : rb_color) (tmp : rb_cmds) (py : pending_cmd) (elm : rb_cmds) :
    rb_cmds × rb_remove_state :=
  if rb_is_red elm then
    (rb_cmds.node pc tmp py (rb_set_color rb_color.RB_BLACK elm), rb_remove_state.done)
  else
    match tmp with
    | rb_cmds.node rb_color.RB_RED tl te tr =>
      match rb_remove_color_right_sibling rb_color.RB_RED tr py elm with
      | (sub, rb_remove_state.elm) =>
        (rb_cmds.node rb_color.RB_BLACK tl te (rb_set_color rb_color.RB_BLACK sub),
          rb_remove_state.done)
      | (sub, st) => (rb_cmds.node rb_color.RB_BLACK tl te sub, st)
    | _ => rb_remove_color_right_sibling pc tmp py elm

/-- The loop of `RB_REMOVE_COLOR` seen from the node `y` whose left subtree
`l1` lost a node. -/
def rb_remove_up_left (c : rb_color) (l1 : rb_cmds) (y : pending_cmd) (r : rb_cmds)
    (st : rb_remove_state) : rb_cmds × rb_remove_state :=
  match st with
  | rb_remove_state.elm => rb_remove_color_left c l1 y r
  | st => (rb_cmds.node c l1 y r, st)

/-- The loop of `RB_REMOVE_COLOR` seen from the node `y` whose right subtree
`r1` lost a node. -/
def rb_remove_up_right (c : rb_color) (l : rb_cmds) (y : pending_cmd) (r1 : rb_cmds)
    (st : rb_remove_state) : rb_cmds × rb_remove_state :=
  match st with
  | rb_remove_state.elm => rb_remove_color_right c l y r1
  | st => (rb_cmds.node c l y r1, st)

/-- The walk of `RB_REMOVE` to the leftmost node of a subtree (the successor
of a node with two children), which is unlinked: its record, the subtree
without it, and the state of `RB_REMOVE_COLOR`. -/
def rb_remove_min : rb_cmds → Option (pending_cmd × rb_cmds × rb_remove_state)
  | rb_cmds.nil => none
  | rb_cmds.node c l y r =>
    match rb_remove_min l with
    | none => some (y, r, rb_unlinked c)
    | some (s, l1, st) =>
      some (s, (rb_remove_up_left c l1 y r st).1, (rb_remove_up_left c l1 y r st).2)

/-- The body of `RB_REMOVE` at the node `elm` itself, of colour `c`, with the
subtrees `l` and `r`: with at most one child the child takes its place; with
two children the successor takes its place and its colour. -/
def rb_remove_node (c : rb_color) (l r : rb_cmds) : rb_cmds × rb_remove_state :=
  match l, r with
  | rb_cmds.nil, _ => (r, rb_unlinked c)
  | _, rb_cmds.nil => (l, rb_unlinked c)
  | _, _ =>
    match rb_remove_min r with
    | none => (l, rb_unlinked c)
    | some (s, r1, st) => rb_remove_up_right c l s r1 st

/-- The way to the node `elm` and its removal.  In the program `RB_REMOVE`
receives the node by pointer; here the node is the one at which the descent of
`RB_FIND` for its record ends, which is the node `find_cmd` returned or
`RB_INSERT` has just linked in. -/
def rb_remove_rec (elm : pending_cmd) : rb_cmds → rb_cmds × rb_remove_state
  | rb_cmds.nil => (rb_cmds.nil, rb_remove_state.done)
  | rb_cmds.node c l y r =>
    if cmp_cmd elm y < 0 then
      rb_remove_up_left c (rb_remove_rec elm l).1 y r (rb_remove_rec elm l).2
    else if cmp_cmd elm y > 0 then
      rb_remove_up_right c l y (rb_remove_rec elm r).1 (rb_remove_rec elm r).2
    else rb_remove_node c l r

/-- Modelled from the spec: `RB_REMOVE` of bsd_tree.h (not under src) unlinks
the node `elm` and, when a black node left its place, runs `RB_REMOVE_COLOR`,
which ends by making its `elm` black. -/
def RB_REMOVE (head : rb_cmds) (elm : pending_cmd) : rb_cmds :=
  match rb_remove_rec elm head with
  | (t, rb_remove_state.done) => t
  | (t, _) => rb_set_color rb_color.RB_BLACK t

/-- The function `find_cmd`. -/
def find_cmd (api : memcached_api) (opaque_id : Nat) : Option pending_cmd :=
  RB_FIND api.pending_cmd_list ⟨opaque_id, memcached_cmd.MEMCACHED_CMD_GET, none, 0⟩

/-! ## Response demultiplexing and connection loss -/

/-- The function `cb_result`, called by the transport with a received message
(its `server` argument is not used by the body). -/
def cb_result (api : memcached_api) (in_msg : memcached_msg) : Outcome Unit :=
  match find_cmd api in_msg.opaque_id with
  | none => Outcome.core_me "Unable to find such value" []
  | some cmd =>
    if in_msg.opcode ≠ cmd.sent_command then
      Outcome.core_me "Got a result with unexpected opcode" []
    else
      let api1 := { api with pending_cmd_list := RB_REMOVE api.pending_cmd_list cmd }
      match cmd.callbacks with
      | none => Outcome.returned ⟨(), api1, [Event.free_cmd cmd], none⟩
      | some f =>
        if in_msg.opcode = memcached_cmd.MEMCACHED_CMD_GET
            ∨ in_msg.opcode = memcached_cmd.MEMCACHED_CMD_GETK then
          Outcome.returned ⟨(), api1,
            [Event.callback_get f in_msg.status in_msg.key in_msg.key_len in_msg.data
               in_msg.data_len in_msg.cas api.user_data cmd.callback_data,
             Event.free_cmd cmd], none⟩
        else if in_msg.opcode = memcached_cmd.MEMCACHED_CMD_ADD
            ∨ in_msg.opcode = memcached_cmd.MEMCACHED_CMD_SET
            ∨ in_msg.opcode = memcached_cmd.MEMCACHED_CMD_REPLACE then
          Outcome.returned ⟨(), api1,
            [Event.callback_add f in_msg.status in_msg.cas api.user_data cmd.callback_data,
             Event.free_cmd cmd], none⟩
        else
          Outcome.core_me "Unimplemented result handler (cmd: %i)" []

/-- The loop of `cb_server_error` over the host table: the first entry whose
connection is `server` loses it; `none` when no entry holds `server`. -/
def cb_server_error_loop (server : Option Nat) :
    List memcached_host → Option (List memcached_host)
  | [] => none
  | h :: t =>
    if h.server_conn = server then
      some ({ h with server_conn := none } :: t)
    else
      (cb_server_error_loop server t).map (fun t1 => h :: t1)

/-- The function `cb_server_error`. -/
def cb_server_error (api : memcached_api) (server : Option Nat) : Outcome Unit :=
  match cb_server_error_loop server api.host_list with
  | some hosts =>
    Outcome.returned ⟨(), { api with host_list := hosts }, [Event.free_server server], none⟩
  | none => Outcome.core_me "cb_server_error() called with an unknown server" []

/-! ## Request issuance -/

/-- The function `new_cmd`: `none` is the `NULL` it returns when `calloc`
fails. -/
def new_cmd (env : Env) (api : memcached_api) (msg : memcached_msg)
    (callback_func : Option Nat) (callback_data : Nat) : Outcome (Option pending_cmd) :=
  if env.calloc_ok = false then
    Outcome.returned ⟨none, api, [], none⟩
  else
    let cmd : pending_cmd := ⟨msg.opaque_id, msg.opcode, callback_func, callback_data⟩
    match RB_INSERT api.pending_cmd_list cmd with
    | (_, some _) =>
      Outcome.core_me "Elment with this opaque id already exists in the tree" []
    | (head, none) =>
      Outcome.returned ⟨some cmd, { api with pending_cmd_list := head }, [], none⟩

/-- The function `get_host`: the index of the selected entry of `host_list`
(the pointer `&api->host_list[server_num]`), or `NULL` together with the value
assigned to `errno`. -/
def get_host (api : memcached_api) (key : List Nat) (key_len : Nat) :
    Option Nat × Option Nat :=
  let server_num := api.cb_func_hash key (key_len : Int) api.host_list api.num_host
  if server_num ≤ -1 ∨ server_num ≥ api.num_host then
    (none, some EBADSLT)
  else
    (some server_num.toNat, none)

/-- The label `fail` of `server_command_poxy`. -/
def fail (api : memcached_api) (events : List Event) (errno : Option Nat) : Outcome Int :=
  Outcome.returned ⟨-1, api, events, errno⟩

/-- The label `fail_free_key` of `server_command_poxy`. -/
def fail_free_key (api : memcached_api) (msg : memcached_msg) (events : List Event)
    (errno : Option Nat) : Outcome Int :=
  if api.cb_func_keytrans.isSome then
    fail api (events ++ [Event.free_key msg.key]) errno
  else
    fail api events errno

/-- The label `fail_free_cmd` of `server_command_poxy`. -/
def fail_free_cmd (api : memcached_api) (msg : memcached_msg) (cmd : pending_cmd)
    (events : List Event) : Outcome Int :=
  fail_free_key { api with pending_cmd_list := RB_REMOVE api.pending_cmd_list cmd } msg
    (events ++ [Event.free_cmd cmd]) none

/-- The key transformation at the head of `server_command_poxy`: the message
with its key replaced, or `none` when the transform returns -1. -/
def apply_keytrans (api : memcached_api) (msg : memcached_msg) : Option memcached_msg :=
  match api.cb_func_keytrans with
  | none => some msg
  | some keytrans =>
    match keytrans msg.key msg.key_len with
    | none => none
    | some (out_key, out_len) => some { msg with key := out_key, key_len := out_len }

/-- The part of `server_command_poxy` after the pending record is registered
(from the test of `host->server_conn` to `return 0`): connect the host when it
has no connection, send, and advance the token counter.  `i` is the index of
`host` in the host table. -/
def connect_and_send (env : Env) (api1 : memcached_api) (msg2 : memcached_msg)
    (cmd : pending_cmd) (i : Nat) : Outcome Int :=
  let host := api1.host_list.getD i default
  match host.server_conn with
  | some conn =>
    if env.memcached_send conn msg2 = -1 then
      fail_free_cmd api1 msg2 cmd [Event.memcached_send conn msg2]
    else
      Outcome.returned ⟨0, { api1 with sequence_id := (api1.sequence_id + 1) % UINT32_SIZE },
        [Event.memcached_send conn msg2], none⟩
  | none =>
    match env.memcached_init api1.event_base host.sockaddr api1.conn_type with
    | none =>
      fail_free_cmd api1 msg2 cmd
        [Event.memcached_init api1.event_base host.sockaddr api1.conn_type]
    | some conn =>
      let api2 := { api1 with
        host_list := api1.host_list.set i { host with server_conn := some conn } }
      if env.memcached_send conn msg2 = -1 then
        fail_free_cmd api2 msg2 cmd
          [Event.memcached_init api1.event_base host.sockaddr api1.conn_type,
           Event.memcached_send conn msg2]
      else
        Outcome.returned ⟨0,
          { api2 with sequence_id := (api2.sequence_id + 1) % UINT32_SIZE },
          [Event.memcached_init api1.event_base host.sockaddr api1.conn_type,
           Event.memcached_send conn msg2], none⟩

/-- The function `server_command_poxy`. -/
def server_command_poxy (env : Env) (api : memcached_api) (msg : memcached_msg)
    (callback_func : Option Nat) (callback_data : Nat) : Outcome Int :=
  match apply_keytrans api msg with
  | none => fail api [] none
  | some msg1 =>
    match get_host api msg1.key msg1.key_len with
    | (none, errno) => fail_free_key api msg1 [] errno
    | (some i, _) =>
      match new_cmd env api { msg1 with opaque_id := api.sequence_id } callback_func
          callback_data with
      | Outcome.core_me m ev => Outcome.core_me m ev
      | Outcome.returned r =>
        match r.ret with
        | none => fail_free_key api { msg1 with opaque_id := api.sequence_id } [] none
        | some cmd =>
          connect_and_send env r.api { msg1 with opaque_id := api.sequence_id } cmd i

/-- The four bytes of `htonl x` as they lie in memory: most significant first. -/
def htonl (x : Nat) : List Nat :=
  [x / 16777216 % 256, x / 65536 % 256, x / 256 % 256, x % 256]

/-- The function `memcached_api_get`. -/
def memcached_api_get (env : Env) (api : memcached_api) (key : List Nat) (key_len : Nat)
    (callback_func : Option Nat) (callback_data : Nat) : Outcome Int :=
  server_command_poxy env api
    ⟨memcached_cmd.MEMCACHED_CMD_GETK, key, key_len, [], 0, 0, [], 0, 0, 0⟩
    callback_func callback_data

/-- The function `memcached_api_add`. -/
def memcached_api_add (env : Env) (api : memcached_api) (key : List Nat) (key_len : Nat)
    (data : List Nat) (data_len : Nat) (callback_func : Option Nat) (callback_data : Nat) :
    Outcome Int :=
  server_command_poxy env api
    ⟨memcached_cmd.MEMCACHED_CMD_ADD, key, key_len, [], 0, 0, data, data_len, 0, 0⟩
    callback_func callback_data

/-- The function `memcached_api_set`. -/
def memcached_api_set (env : Env) (api : memcached_api) (key : List Nat) (key_len : Nat)
    (data : List Nat) (data_len : Nat) (cas : Nat) (flags : Nat) (expiry : Nat)
    (callback_func : Option Nat) (callback_data : Nat) : Outcome Int :=
  server_command_poxy env api
    ⟨memcached_cmd.MEMCACHED_CMD_SET, key, key_len, htonl flags ++ htonl expiry, 8, cas,
      data, data_len, 0, 0⟩
    callback_func callback_data

/-! ## Teardown -/

/-- The loop of `memcached_api_free` over the tree of pending commands: from
`RB_MIN` on, each record is unlinked with `RB_REMOVE` and freed, and the loop
goes on with the `RB_NEXT` it took before.  The argument is the list of the
records in the order of that walk (`rb_cmds.toList`): `RB_MIN` and `RB_NEXT`
follow the links of the tree and do not call the comparator, and unlinking the
first node leaves the others in their order. -/
def free_pending_loop : List pending_cmd → List Event
  | [] => []
  | cur_cmd :: next_cmd => Event.free_cmd cur_cmd :: free_pending_loop next_cmd

/-- The function `memcached_api_free`: the client is gone afterwards, what is
left of the call is its trace. -/
def memcached_api_free (api : memcached_api) : List Event :=
  api.host_list.map (fun h => Event.memcached_free h.server_conn)
    ++ free_pending_loop api.pending_cmd_list.toList
    ++ [Event.free_host_list, Event.free_api]

/-! ## Construction -/

/-- The function `cmp_inet4`.  Both operands of each subtraction are fields of
`addr1`, as in the source. -/
def cmp_inet4 (addr1 _addr2 : sockaddr) : Int :=
  let cmp_addr := uint32_to_int ((addr1.s_addr : Int) - (addr1.s_addr : Int))
  if cmp_addr ≠ 0 then cmp_addr
  else (addr1.sin_port : Int) - (addr1.sin_port : Int)

/-- The function `cmp_inet6`. -/
def cmp_inet6 (addr1 addr2 : sockaddr) : Int :=
  let c0 := uint32_to_int ((addr1.u6_addr32_0 : Int) - (addr2.u6_addr32_0 : Int))
  if c0 ≠ 0 then c0 else
  let c1 := uint32_to_int ((addr1.u6_addr32_1 : Int) - (addr2.u6_addr32_1 : Int))
  if c1 ≠ 0 then c1 else
  let c2 := uint32_to_int ((addr1.u6_addr32_2 : Int) - (addr2.u6_addr32_2 : Int))
  if c2 ≠ 0 then c2 else
  let c3 := uint32_to_int ((addr1.u6_addr32_3 : Int) - (addr2.u6_addr32_3 : Int))
  if c3 ≠ 0 then c3 else
  (addr1.sin6_port : Int) - (addr2.sin6_port : Int)

/-- The function `cmp_servers`. -/
def cmp_servers (h1 h2 : memcached_host) : Int :=
  let protocol_cmp := (h1.sockaddr.sa_family : Int) - (h2.sockaddr.sa_family : Int)
  if protocol_cmp ≠ 0 then protocol_cmp
  else if h1.sockaddr.sa_family = AF_INET then cmp_inet4 h1.sockaddr h2.sockaddr
  else cmp_inet6 h1.sockaddr h2.sockaddr

/-- What libc answers during `memcached_api_init`: whether the two `calloc`
calls succeed, and the permutation `qsort` computes. -/
structure InitEnv where
  calloc_api_ok : Bool
  calloc_hosts_ok : Bool
  qsort : (memcached_host → memcached_host → Int) → List memcached_host → List memcached_host

/-- The `memcpy` of `add_hosts` into a zeroed entry: the bytes of the view
that belongs to the family; `none` for a family that is neither `AF_INET` nor
`AF_INET6`. -/
def copy_sockaddr (h : sockaddr) : Option sockaddr :=
  if h.sa_family = AF_INET then
    some ⟨h.sa_family, h.sin_port, h.s_addr, 0, 0, 0, 0, 0⟩
  else if h.sa_family = AF_INET6 then
    some ⟨h.sa_family, 0, 0, h.sin6_port, h.u6_addr32_0, h.u6_addr32_1, h.u6_addr32_2,
      h.u6_addr32_3⟩
  else none

/-- The copying loop of `add_hosts`: `none` when it returns -1. -/
def add_hosts_loop : List sockaddr → Option (List memcached_host)
  | [] => some []
  | h :: t =>
    match copy_sockaddr h with
    | none => none
    | some a => (add_hosts_loop t).map (fun t1 => ⟨a, none⟩ :: t1)

/-- The function `add_hosts`: the filled host table, or `none` with `errno`
set to `EAFNOSUPPORT` when it returns -1. -/
def add_hosts (env : InitEnv) (hosts : List sockaddr) : Option (List memcached_host) :=
  match add_hosts_loop hosts with
  | none => none
  | some host_list =>
    if (hosts.length : Int) > 1 then some (env.qsort cmp_servers host_list)
    else some host_list

/-- The function `memcached_api_init`: the client, or `NULL` (`none`) and the
value assigned to `errno`.  `hosts` holds the `num_hosts` addresses. -/
def memcached_api_init (env : InitEnv) (event_base : Nat) (hash_func : Option memcached_hash_func)
    (key_fun : Option memcached_keytrans_func) (hosts : List sockaddr) (conn_type : Nat)
    (user_baton : Nat) : Option memcached_api × Option Nat :=
  if env.calloc_api_ok = false then (none, none)
  else
    match hash_func with
    | none => (none, some EINVAL)
    | some hash =>
      if env.calloc_hosts_ok = false then (none, none)
      else
        match add_hosts env hosts with
        | none => (none, some EAFNOSUPPORT)
        | some host_list =>
          (some ⟨conn_type, event_base, hash, key_fun, 0, host_list, user_baton, RB_INIT⟩,
            none)

/-! ## Reachable client states -/

/-- Modelled from the spec: the type `crc32t` and the functions `crc32init`,
`crc32update` come from crc32.h, which is not under src.  The spec calls the
result a 32-bit cyclic-redundancy checksum over the raw key bytes: `crc32t` is
an unsigned 32-bit integer, and the two functions are left arbitrary. -/
structure Crc32 where
  crc32init : Nat
  crc32update : Nat → List Nat → Int → Nat

/-- The function `memcached_hash_none`. -/
def memcached_hash_none : memcached_hash_func := fun _key _key_len _hosts _num_hosts => 0

/-- The function `memcached_hash_crc32`.  `sum` is a `crc32t`; in
`sum % num_hosts` the `int` is converted to unsigned, the remainder is
unsigned, and the `return` converts it to `int`. -/
def memcached_hash_crc32 (crc : Crc32) : memcached_hash_func :=
  fun key key_len _hosts num_hosts =>
    if num_hosts = 0 then 0
    else
      let sum : Int := ((crc.crc32update crc.crc32init key key_len % UINT32_SIZE : Nat) : Int)
      uint32_to_int (sum % (num_hosts % 4294967296))

/-- The function `memcached_hash_ketama`. -/
def memcached_hash_ketama : memcached_hash_func := fun _key _key_len _hosts _num_hosts => -1

/-! ## Key transforms (key.c) -/

/-- The libc function `strndup`: a new buffer that holds the bytes of `s` up to
its first zero byte, at most `n` of them, and a terminating zero.  `s` is the
list of the bytes that lie at the pointer. -/
def strndup (s : List Nat) (n : Nat) : List Nat :=
  (s.take n).takeWhile (fun b => decide (b ≠ 0)) ++ [0]

/-- The libc function `strlen`: the number of bytes before the first zero. -/
def strlen (s : List Nat) : Nat :=
  (s.takeWhile (fun b => decide (b ≠ 0))).length

/-- The function `memcached_key_none`; `alloc_ok` says whether `strndup` can
allocate.  The result is the buffer `*out_key` and the length `*out_len`. -/
def memcached_key_none (alloc_ok : Bool) : memcached_keytrans_func :=
  fun in_key in_len =>
    if alloc_ok = false then none
    else some (strndup in_key in_len, in_len)

/-- The function `memcached_key_len250`; `alloc_ok` says whether `strndup` can
allocate. -/
def memcached_key_len250 (alloc_ok : Bool) : memcached_keytrans_func :=
  fun in_key in_len =>
    if alloc_ok = false then none
    else
      let out_key := strndup in_key 250
      some (out_key, if in_len ≤ 250 then in_len else strlen out_key)

/-- The function `tohex`: entry `i` of the table "0123456789abcdef", as a
character code. -/
def tohex (i : Nat) : Nat :=
  [48, 49, 50, 51, 52, 53, 54, 55, 56, 57, 97, 98, 99, 100, 101, 102].getD i 0

/-- The loop of `memcached_key_md5` over the bytes of the digest, from byte
`i` on for `n` more bytes: two characters per byte. -/
def md5_hex_loop (digest : List Nat) (i : Nat) : Nat → List Nat
  | 0 => []
  | n + 1 =>
    tohex ((digest.getD i 0 >>> 4) &&& 15) :: tohex (digest.getD i 0 &&& 15)
      :: md5_hex_loop digest (i + 1) n

/-- The constant `MD5_DIGEST_LENGTH` of openssl. -/
def MD5_DIGEST_LENGTH : Nat := 16

/-- The function `memcached_key_md5`; `alloc_ok` says whether `malloc` succeeds
and `MD5` is the digest function of openssl, which yields the
`MD5_DIGEST_LENGTH` bytes of the digest of the first `in_len` bytes of the
key. -/
def memcached_key_md5 (alloc_ok : Bool) (MD5 : List Nat → Nat → List Nat) :
    memcached_keytrans_func :=
  fun in_key in_len =>
    if alloc_ok = false then none
    else some (md5_hex_loop (MD5 in_key in_len) 0 MD5_DIGEST_LENGTH, 32)

/-! ## Concrete clients used to exercise the theorems -/

/-- A sharding strategy that always answers 0 (the body of `memcached_hash_none`). -/
def hash_zero : memcached_hash_func := fun _ _ _ _ => 0

/-- An IPv4 address 10.0.0.1:11211. -/
def addr_a : sockaddr := ⟨2, 11211, 167772161, 0, 0, 0, 0, 0⟩

/-- A client with one disconnected host, no key transform, nothing pending. -/
def api_one : memcached_api := ⟨0, 0, hash_zero, none, 0, [⟨addr_a, none⟩], 9, RB_INIT⟩

/-- A transport on which connecting fails. -/
def env_no_connect : Env := ⟨true, fun _ _ _ => none, fun _ _ => 0⟩

/-- A transport on which connecting and sending succeed. -/
def env_ok : Env := ⟨true, fun _ _ _ => some 1, fun _ _ => 0⟩

/-- A get request for the key "foo". -/
def msg_foo : memcached_msg :=
  ⟨memcached_cmd.MEMCACHED_CMD_GETK, [102, 111, 111], 3, [], 0, 0, [], 0, 0, 0⟩

/-! ## Vocabulary of the statements -/

/-- A request as the caller hands it to one of the three public issue
functions. -/
inductive Request
  | get (key : List Nat) (key_len : Nat)
  | add (key : List Nat) (key_len : Nat) (data : List Nat) (data_len : Nat)
  | set (key : List Nat) (key_len : Nat) (data : List Nat) (data_len : Nat) (cas : Nat)
      (flags : Nat) (expiry : Nat)

/-- The call of `memcached_api_get`, `memcached_api_add` or `memcached_api_set`
that belongs to the request. -/
def issue (env : Env) (api : memcached_api) (req : Request) (callback_func : Option Nat)
    (callback_data : Nat) : Outcome Int :=
  match req with
  | Request.get key key_len => memcached_api_get env api key key_len callback_func callback_data
  | Request.add key key_len data data_len =>
    memcached_api_add env api key key_len data data_len callback_func callback_data
  | Request.set key key_len data data_len cas flags expiry =>
    memcached_api_set env api key key_len data data_len cas flags expiry callback_func
      callback_data

/-- The command kind of a request: GETK for get, ADD for add, SET for set. -/
def Request.kind : Request → memcached_cmd
  | Request.get _ _ => memcached_cmd.MEMCACHED_CMD_GETK
  | Request.add _ _ _ _ => memcached_cmd.MEMCACHED_CMD_ADD
  | Request.set _ _ _ _ _ _ _ => memcached_cmd.MEMCACHED_CMD_SET

/-- The message that the issue function of a request builds and passes to
`server_command_poxy`. -/
def Request.msg : Request → memcached_msg
  | Request.get key key_len =>
    ⟨memcached_cmd.MEMCACHED_CMD_GETK, key, key_len, [], 0, 0, [], 0, 0, 0⟩
  | Request.add key key_len data data_len =>
    ⟨memcached_cmd.MEMCACHED_CMD_ADD, key, key_len, [], 0, 0, data, data_len, 0, 0⟩
  | Request.set key key_len data data_len cas flags expiry =>
    ⟨memcached_cmd.MEMCACHED_CMD_SET, key, key_len, htonl flags ++ htonl expiry, 8, cas,
      data, data_len, 0, 0⟩

/-- The messages handed to `memcached_send` in a trace. -/
def sent_messages (events : List Event) : List memcached_msg :=
  events.filterMap (fun e =>
    match e with
    | Event.memcached_send _ msg => some msg
    | _ => none)

/-- The callback pointer and the per-command context of an invocation of a
completion callback; `none` for an event that is no invocation. -/
def Event.callback_of : Event → Option (Nat × Nat)
  | Event.callback_get f _ _ _ _ _ _ _ cmd_baton => some (f, cmd_baton)
  | Event.callback_add f _ _ _ cmd_baton => some (f, cmd_baton)
  | _ => none

/-- The invocations of completion callbacks in a trace, each as callback
pointer and per-command context. -/
def callbacks_invoked (events : List Event) : List (Nat × Nat) :=
  events.filterMap Event.callback_of

/-- The invocations of completion callbacks in a trace, with all their
arguments. -/
def callback_events (events : List Event) : List Event :=
  events.filter (fun e => (Event.callback_of e).isSome)

/-- The pending records released with `free` in a trace. -/
def freed_cmds (events : List Event) : List pending_cmd :=
  events.filterMap (fun e =>
    match e with
    | Event.free_cmd cmd => some cmd
    | _ => none)

/-- The teardown policy the spec recommends (§4.6), as far as the trace shows
it: every pending record that carries a completion callback has that callback
invoked exactly once, with the record's context, by `memcached_api_free`. -/
def teardown_faults_pending (api : memcached_api) : Prop :=
  ∀ c ∈ api.pending_cmd_list.toList, ∀ f, c.callbacks = some f →
    (callbacks_invoked (memcached_api_free api)).count (f, c.callback_data) = 1

/-- The connection the selected host ends up with when connecting succeeds:
the one it holds, or else the one `memcached_init` returns. -/
def host_connection (env : Env) (api : memcached_api) (i : Nat) : Option Nat :=
  match (api.host_list.getD i default).server_conn with
  | some conn => some conn
  | none =>
    env.memcached_init api.event_base (api.host_list.getD i default).sockaddr api.conn_type

/-- The descent of `RB_FIND` for `elm` with what it passes: the records to the
left of the node where it ends, the record of that node, and the records to
its right, in tree order; `none` when the descent leaves the tree. -/
def rb_split (elm : pending_cmd) :
    rb_cmds → Option (List pending_cmd × pending_cmd × List pending_cmd)
  | rb_cmds.nil => none
  | rb_cmds.node _ l y r =>
    if cmp_cmd elm y < 0 then
      (rb_split elm l).map (fun s => (s.1, s.2.1, s.2.2 ++ y :: r.toList))
    else if cmp_cmd elm y > 0 then
      (rb_split elm r).map (fun s => (l.toList ++ y :: s.1, s.2.1, s.2.2))
    else some (l.toList, y, r.toList)

/-- The descent of `RB_INSERT` for `elm` down to the leaf where a new node is
linked in: the records to the left and to the right of that place, in tree
order; `none` when the descent meets a node that compares equal. -/
def rb_insert_pos (elm : pending_cmd) : rb_cmds → Option (List pending_cmd × List pending_cmd)
  | rb_cmds.nil => some ([], [])
  | rb_cmds.node _ l y r =>
    if cmp_cmd elm y < 0 then
      (rb_insert_pos elm l).map (fun s => (s.1, s.2 ++ y :: r.toList))
    else if cmp_cmd elm y > 0 then
      (rb_insert_pos elm r).map (fun s => (l.toList ++ y :: s.1, s.2))
    else none

/-- The branch the descent for `elm` takes at the root of `t`: left. -/
def rb_goes_left (elm : pending_cmd) : rb_cmds → Prop
  | rb_cmds.nil => True
  | rb_cmds.node _ _ y _ => cmp_cmd elm y < 0

/-- The branch the descent for `elm` takes at the root of `t`: right. -/
def rb_goes_right (elm : pending_cmd) : rb_cmds → Prop
  | rb_cmds.nil => True
  | rb_cmds.node _ _ y _ => 0 < cmp_cmd elm y

/-- The value of the token counter `i` issues after it held `start`: each
successful issue does `sequence_id++` on a `uint32_t`, so the counter wraps. -/
def token_at (start i : Nat) : Nat := (start + i) % UINT32_SIZE

/-- A tree of one black node. -/
def rb_leaf (c : pending_cmd) : rb_cmds :=
  rb_cmds.node rb_color.RB_BLACK rb_cmds.nil c rb_cmds.nil

/-- A client on which token 0 is still pending while the counter is 0 again. -/
def api_wrapped : memcached_api :=
  ⟨0, 0, hash_zero, none, 0, [⟨addr_a, none⟩], 9,
    rb_leaf ⟨0, memcached_cmd.MEMCACHED_CMD_GETK, some 7, 5⟩⟩

/-- A client with three pending requests, each with a completion callback, as
three successful issues leave it. -/
def api_three : memcached_api :=
  ⟨0, 0, hash_zero, none, 3, [⟨addr_a, some 1⟩], 9,
    rb_cmds.node rb_color.RB_BLACK
      (rb_cmds.node rb_color.RB_RED rb_cmds.nil
        ⟨0, memcached_cmd.MEMCACHED_CMD_GETK, some 11, 21⟩ rb_cmds.nil)
      ⟨1, memcached_cmd.MEMCACHED_CMD_ADD, some 12, 22⟩
      (rb_cmds.node rb_color.RB_RED rb_cmds.nil
        ⟨2, memcached_cmd.MEMCACHED_CMD_SET, some 13, 23⟩ rb_cmds.nil)⟩

/-- A transport on which sending fails. -/
def env_no_send : Env := ⟨true, fun _ _ _ => some 1, fun _ _ => -1⟩

/-- What a get for "foo" on `api_three` returns when the send fails: the
record numbered 3 was linked in, which recoloured the tree, and unlinked
again. -/
def fail_result : Result Int :=
  ⟨-1,
    ⟨0, 0, hash_zero, none, 3, [⟨addr_a, some 1⟩], 9,
      rb_cmds.node rb_color.RB_BLACK
        (rb_leaf ⟨0, memcached_cmd.MEMCACHED_CMD_GETK, some 11, 21⟩)
        ⟨1, memcached_cmd.MEMCACHED_CMD_ADD, some 12, 22⟩
        (rb_leaf ⟨2, memcached_cmd.MEMCACHED_CMD_SET, some 13, 23⟩)⟩,
    [Event.memcached_send 1 { msg_foo with opaque_id := 3 },
     Event.free_cmd ⟨3, memcached_cmd.MEMCACHED_CMD_GETK, some 7, 5⟩], none⟩

/-- What a get for "foo" on `api_three` returns when the send succeeds. -/
def issued_result : Result Int :=
  ⟨0,
    ⟨0, 0, hash_zero, none, 4, [⟨addr_a, some 1⟩], 9,
      rb_cmds.node rb_color.RB_BLACK
        (rb_leaf ⟨0, memcached_cmd.MEMCACHED_CMD_GETK, some 11, 21⟩)
        ⟨1, memcached_cmd.MEMCACHED_CMD_ADD, some 12, 22⟩
        (rb_cmds.node rb_color.RB_BLACK rb_cmds.nil
          ⟨2, memcached_cmd.MEMCACHED_CMD_SET, some 13, 23⟩
          (rb_cmds.node rb_color.RB_RED rb_cmds.nil
            ⟨3, memcached_cmd.MEMCACHED_CMD_GETK, some 7, 5⟩ rb_cmds.nil))⟩,
    [Event.memcached_send 1 { msg_foo with opaque_id := 3 }], none⟩

/-- The response to the get numbered 3: a hit with value "bar". -/
def response_three : memcached_msg :=
  ⟨memcached_cmd.MEMCACHED_CMD_GETK, [102, 111, 111], 3, [], 0, 77, [98, 97, 114], 3, 3, 0⟩

/-- The response to the add numbered 1. -/
def response_add : memcached_msg :=
  ⟨memcached_cmd.MEMCACHED_CMD_ADD, [], 0, [], 0, 78, [], 0, 1, 0⟩

/-- The response to the get numbered 0: a hit with value "bar". -/
def response_zero : memcached_msg :=
  ⟨memcached_cmd.MEMCACHED_CMD_GETK, [102, 111, 111], 3, [], 0, 77, [98, 97, 114], 3, 0, 0⟩

/-- An IPv4 address 10.0.0.2:11211. -/
def addr_b : sockaddr := ⟨2, 11211, 167772162, 0, 0, 0, 0, 0⟩

/-- A client with two connected hosts and one pending request. -/
def api_two : memcached_api :=
  ⟨0, 0, hash_zero, none, 1, [⟨addr_a, some 1⟩, ⟨addr_b, some 2⟩], 9,
    rb_leaf ⟨0, memcached_cmd.MEMCACHED_CMD_GETK, some 11, 21⟩⟩

/-- The client that `memcached_api_init` returns for an empty host list. -/
def api_zero : memcached_api := ⟨0, 0, hash_zero, none, 0, [], 9, RB_INIT⟩

/-- A checksum whose value has its top bit set for every key: 0xFFFFFFFF. -/
def crc_top : Crc32 := ⟨4294967295, fun crc _ _ => crc⟩

/-- A checksum that adds the key bytes to the initial value 0. -/
def crc_sum : Crc32 := ⟨0, fun crc key key_len => crc + (key.take key_len.toNat).sum⟩

/-- A client with one host and the consistent-hash placeholder as strategy. -/
def api_ketama : memcached_api :=
  ⟨0, 0, memcached_hash_ketama, none, 0, [⟨addr_a, none⟩], 9, RB_INIT⟩

/-- The client that `memcached_api_init` returns for an empty host list, the
fixed strategy and the key transform `memcached_key_none` on which `strndup`
cannot allocate. -/
def api_no_key : memcached_api :=
  ⟨0, 0, memcached_hash_none, some (memcached_key_none false), 0, [], 9, RB_INIT⟩

/-- A client with no host and the fixed strategy. -/
def api_empty : memcached_api := ⟨0, 0, memcached_hash_none, none, 0, [], 9, RB_INIT⟩

/-- What every `qsort` has in common, as far as the array goes in and comes
out: it only moves the elements and learns about them through the comparator,
so on an array whose elements are replaced one by one by elements that compare
the same way it makes the same moves. -/
def comparison_based
    (qsort : (memcached_host → memcached_host → Int) → List memcached_host → List memcached_host) :
    Prop :=
  ∀ (cmp : memcached_host → memcached_host → Int) (f : memcached_host → memcached_host)
    (l : List memcached_host),
    (∀ x y, cmp (f x) (f y) = cmp x y) → qsort cmp (l.map f) = (qsort cmp l).map f

/-- Insertion of `x` in front of the first element that it does not exceed. -/
def insert_sorted (cmp : memcached_host → memcached_host → Int) (x : memcached_host) :
    List memcached_host → List memcached_host
  | [] => [x]
  | y :: t => if cmp x y ≤ 0 then x :: y :: t else y :: insert_sorted cmp x t

/-- A `qsort` for the examples: insertion sort, which keeps elements that
compare equal in their order. -/
def insertion_qsort (cmp : memcached_host → memcached_host → Int) :
    List memcached_host → List memcached_host
  | [] => []
  | x :: t => insert_sorted cmp x (insertion_qsort cmp t)

/-- A libc on which allocation succeeds and `qsort` is `insertion_qsort`. -/
def init_env_ok : InitEnv := ⟨true, true, insertion_qsort⟩

/-- The exchange of two hosts. -/
def swap_hosts (a b : memcached_host) : memcached_host → memcached_host :=
  fun x => if x = a then b else if x = b then a else x

/-- An IPv6 address with first word 0x80000000, port 11211. -/
def addr6_hi : sockaddr := ⟨10, 0, 0, 11211, 2147483648, 0, 0, 1⟩

/-- An IPv6 address with first word 0, port 11211. -/
def addr6_lo : sockaddr := ⟨10, 0, 0, 11211, 0, 0, 0, 1⟩

/-- The value of a hexadecimal digit given as a character code: 0-9 for the
codes of '0'..'9', 10-15 for the codes of 'a'..'f'. -/
def hex_value (c : Nat) : Nat := if c ≤ 57 then c - 48 else c - 87

/-- A digest function for the examples: the bytes 0x00, 0x11, .., 0xff. -/
def md5_stub : List Nat → Nat → List Nat := fun _ _ => (List.range 16).map (fun i => 17 * i)

/-- A sharding strategy for the examples: the sum of the key bytes modulo the
number of hosts. -/
def hash_sum : memcached_hash_func := memcached_hash_crc32 crc_sum

/-- A client with two disconnected hosts, the digest-hex key transform and the
strategy `hash_sum`. -/
def api_md5 : memcached_api :=
  ⟨0, 0, hash_sum, some (memcached_key_md5 true md5_stub), 0,
    [⟨addr_a, none⟩, ⟨addr_b, none⟩], 9, RB_INIT⟩

/-- The key that `memcached_key_md5 true md5_stub` returns:
"00112233445566778899aabbccddeeff". -/
def key_md5_stub : List Nat :=
  [48, 48, 49, 49, 50, 50, 51, 51, 52, 52, 53, 53, 54, 54, 55, 55, 56, 56, 57, 57,
   97, 97, 98, 98, 99, 99, 100, 100, 101, 101, 102, 102]

/-- The message sent for a get of "fop" on `api_md5`. -/
def msg_md5 : memcached_msg :=
  ⟨memcached_cmd.MEMCACHED_CMD_GETK, key_md5_stub, 32, [], 0, 0, [], 0, 0, 0⟩

/-- What a get of "fop" on `api_md5` returns over `env_ok`. -/
def md5_result : Result Int :=
  ⟨0,
    ⟨0, 0, hash_sum, some (memcached_key_md5 true md5_stub), 1,
      [⟨addr_a, some 1⟩, ⟨addr_b, none⟩], 9,
      rb_leaf ⟨0, memcached_cmd.MEMCACHED_CMD_GETK, some 7, 5⟩⟩,
    [Event.memcached_init 0 addr_a 0, Event.memcached_send 1 msg_md5], none⟩

/-- A pending record that carries the given token (its other fields do not
enter `cmp_cmd`). -/
def cmd_with_token (token : Nat) : pending_cmd :=
  ⟨token, memcached_cmd.MEMCACHED_CMD_GETK, none, 0⟩

/-! ## Lemmas on the comparator and the index -/

theorem uint32_to_int_eq_zero_iff (z : Int) : uint32_to_int z = 0 ↔ z % 4294967296 = 0 := by
  unfold uint32_to_int
  have h1 := Int.emod_nonneg z (by norm_num : (4294967296 : Int) ≠ 0)
  have h2 := Int.emod_lt_of_pos z (by norm_num : (0 : Int) < 4294967296)
  simp only
  split_ifs <;> omega

theorem cmp_cmd_eq_zero_of_eq (c1 c2 : pending_cmd) (h : c1.opaque_id = c2.opaque_id) :
    cmp_cmd c1 c2 = 0 := by
  unfold cmp_cmd
  rw [uint32_to_int_eq_zero_iff, h]
  simp

theorem cmp_cmd_eq_zero_iff (c1 c2 : pending_cmd) (h1 : c1.opaque_id < UINT32_SIZE)
    (h2 : c2.opaque_id < UINT32_SIZE) : cmp_cmd c1 c2 = 0 ↔ c1.opaque_id = c2.opaque_id := by
  constructor
  · intro h
    unfold cmp_cmd at h
    rw [uint32_to_int_eq_zero_iff] at h
    unfold UINT32_SIZE at h1 h2
    omega
  · exact cmp_cmd_eq_zero_of_eq c1 c2

/-- Within a window of fewer than 2^31 consecutive counter values the
comparator is the difference of the positions in the window. -/
theorem cmp_cmd_window (start w i j : Nat) (c1 c2 : pending_cmd) (hw : w < 2147483648)
    (hi : i < w) (hj : j < w) (h1 : c1.opaque_id = token_at start i)
    (h2 : c2.opaque_id = token_at start j) : cmp_cmd c1 c2 = (i : Int) - (j : Int) := by
  unfold cmp_cmd uint32_to_int
  rw [h1, h2]
  unfold token_at UINT32_SIZE
  simp only
  split_ifs <;> omega

theorem rb_toList_set_color (c : rb_color) (t : rb_cmds) :
    (rb_set_color c t).toList = t.toList := by
  cases t <;> rfl

theorem rb_toList_rotate_left (t : rb_cmds) : (RB_ROTATE_LEFT t).toList = t.toList := by
  unfold RB_ROTATE_LEFT
  split
  · simp [rb_cmds.toList]
  · rfl

theorem rb_toList_rotate_right (t : rb_cmds) : (RB_ROTATE_RIGHT t).toList = t.toList := by
  unfold RB_ROTATE_RIGHT
  split
  · simp [rb_cmds.toList]
  · rfl

theorem rb_split_set_color (elm : pending_cmd) (c : rb_color) (t : rb_cmds) :
    rb_split elm (rb_set_color c t) = rb_split elm t := by
  cases t <;> rfl

theorem rb_split_rotate_left (elm : pending_cmd) (c : rb_color) (a : rb_cmds) (x : pending_cmd)
    (r : rb_cmds) (h : 0 < cmp_cmd elm x) :
    rb_split elm (RB_ROTATE_LEFT (rb_cmds.node c a x r)) = rb_split elm (rb_cmds.node c a x r) := by
  have hx : ¬ cmp_cmd elm x < 0 := by omega
  cases r with
  | nil => rfl
  | node c1 b y d =>
    simp only [RB_ROTATE_LEFT, rb_split, rb_cmds.toList, hx, h, gt_iff_lt, if_true, if_false]
    split_ifs <;> simp [Option.map_map, Function.comp_def, List.append_assoc]

theorem rb_split_rotate_right (elm : pending_cmd) (c : rb_color) (l : rb_cmds) (y : pending_cmd)
    (d : rb_cmds) (h : cmp_cmd elm y < 0) :
    rb_split elm (RB_ROTATE_RIGHT (rb_cmds.node c l y d))
      = rb_split elm (rb_cmds.node c l y d) := by
  have hy : ¬ 0 < cmp_cmd elm y := by omega
  cases l with
  | nil => rfl
  | node c1 a x b =>
    simp only [RB_ROTATE_RIGHT, rb_split, rb_cmds.toList, hy, h, gt_iff_lt, if_true, if_false]
    split_ifs <;> simp [Option.map_map, Function.comp_def, List.append_assoc]

theorem rb_split_some (elm : pending_cmd) (t : rb_cmds) :
    ∀ L x R, rb_split elm t = some (L, x, R) → t.toList = L ++ x :: R ∧ cmp_cmd elm x = 0 := by
  induction t with
  | nil =>
    intro L x R h
    simp [rb_split] at h
  | node c l y r ihl ihr =>
    intro L x R h
    unfold rb_split at h
    split_ifs at h with h1 h2
    · simp only [Option.map_eq_some', Prod.mk.injEq] at h
      obtain ⟨s, hs, rfl, rfl, rfl⟩ := h
      obtain ⟨e1, e2⟩ := ihl s.1 s.2.1 s.2.2 hs
      exact ⟨by simp [rb_cmds.toList, e1], e2⟩
    · simp only [Option.map_eq_some', Prod.mk.injEq] at h
      obtain ⟨s, hs, rfl, rfl, rfl⟩ := h
      obtain ⟨e1, e2⟩ := ihr s.1 s.2.1 s.2.2 hs
      exact ⟨by simp [rb_cmds.toList, e1], e2⟩
    · simp only [Option.some.injEq, Prod.mk.injEq] at h
      obtain ⟨rfl, rfl, rfl⟩ := h
      exact ⟨rfl, by omega⟩

theorem RB_FIND_eq_split (t : rb_cmds) (elm : pending_cmd) :
    RB_FIND t elm = (rb_split elm t).map (fun s => s.2.1) := by
  induction t with
  | nil => rfl
  | node c l y r ihl ihr =>
    unfold RB_FIND rb_split
    split_ifs
    · rw [ihl, Option.map_map]
      rfl
    · rw [ihr, Option.map_map]
      rfl
    · rfl

theorem rb_split_congr (e1 e2 : pending_cmd) (h : ∀ y, cmp_cmd e1 y = cmp_cmd e2 y) (t : rb_cmds) :
    rb_split e1 t = rb_split e2 t := by
  induction t with
  | nil => rfl
  | node c l y r ihl ihr =>
    unfold rb_split
    rw [h y, ihl, ihr]

theorem rb_insert_pos_toList (elm : pending_cmd) (t : rb_cmds) :
    ∀ L R, rb_insert_pos elm t = some (L, R) → t.toList = L ++ R := by
  induction t with
  | nil =>
    intro L R h
    simp only [rb_insert_pos, Option.some.injEq, Prod.mk.injEq] at h
    obtain ⟨rfl, rfl⟩ := h
    rfl
  | node c l y r ihl ihr =>
    intro L R h
    unfold rb_insert_pos at h
    split_ifs at h with h1 h2
    · simp only [Option.map_eq_some', Prod.mk.injEq] at h
      obtain ⟨s, hs, rfl, rfl⟩ := h
      simp [rb_cmds.toList, ihl s.1 s.2 hs]
    · simp only [Option.map_eq_some', Prod.mk.injEq] at h
      obtain ⟨s, hs, rfl, rfl⟩ := h
      simp [rb_cmds.toList, ihr s.1 s.2 hs]

theorem cmp_cmd_self (elm : pending_cmd) : cmp_cmd elm elm = 0 := by
  unfold cmp_cmd uint32_to_int
  simp

theorem rb_split_rotate_left_of_goes_right (elm : pending_cmd) (t : rb_cmds)
    (h : rb_goes_right elm t) : rb_split elm (RB_ROTATE_LEFT t) = rb_split elm t := by
  cases t with
  | nil => rfl
  | node c a x r => exact rb_split_rotate_left elm c a x r h

theorem rb_split_rotate_right_of_goes_left (elm : pending_cmd) (t : rb_cmds)
    (h : rb_goes_left elm t) : rb_split elm (RB_ROTATE_RIGHT t) = rb_split elm t := by
  cases t with
  | nil => rfl
  | node c l y d => exact rb_split_rotate_right elm c l y d h

theorem rb_split_node_left (elm : pending_cmd) (c : rb_color) (l : rb_cmds) (y : pending_cmd)
    (r : rb_cmds) (h : cmp_cmd elm y < 0) :
    rb_split elm (rb_cmds.node c l y r)
      = (rb_split elm l).map (fun s => (s.1, s.2.1, s.2.2 ++ y :: r.toList)) := by
  rw [rb_split, if_pos h]

theorem rb_split_node_right (elm : pending_cmd) (c : rb_color) (l : rb_cmds) (y : pending_cmd)
    (r : rb_cmds) (h : 0 < cmp_cmd elm y) :
    rb_split elm (rb_cmds.node c l y r)
      = (rb_split elm r).map (fun s => (l.toList ++ y :: s.1, s.2.1, s.2.2)) := by
  rw [rb_split, if_neg (by omega), if_pos h]

/-- One pass of the loop of `RB_INSERT_COLOR` on the left keeps the descent
for the new record. -/
theorem rb_split_insert_color_left (elm : pending_cmd) (parent : rb_cmds) (gparent : pending_cmd)
    (tmp : rb_cmds) (b : Bool) (hg : cmp_cmd elm gparent < 0)
    (hb : b = true → rb_goes_right elm parent) :
    rb_split elm (rb_insert_color_left parent gparent tmp b).1
      = rb_split elm (rb_cmds.node rb_color.RB_RED parent gparent tmp) := by
  unfold rb_insert_color_left
  by_cases h1 : rb_is_red tmp = true
  · rw [if_pos h1, rb_split_node_left _ _ _ _ _ hg, rb_split_node_left _ _ _ _ _ hg,
      rb_split_set_color, rb_toList_set_color]
  · rw [if_neg h1]
    dsimp only
    rw [rb_split_rotate_right _ _ _ _ _ hg, rb_split_node_left _ _ _ _ _ hg,
      rb_split_node_left _ _ _ _ _ hg, rb_split_set_color]
    cases b with
    | true => rw [if_pos rfl, rb_split_rotate_left_of_goes_right _ _ (hb rfl)]
    | false => rfl

/-- One pass of the loop of `RB_INSERT_COLOR` on the right keeps the descent
for the new record. -/
theorem rb_split_insert_color_right (elm : pending_cmd) (tmp : rb_cmds) (gparent : pending_cmd)
    (parent : rb_cmds) (b : Bool) (hg : 0 < cmp_cmd elm gparent)
    (hb : b = true → rb_goes_left elm parent) :
    rb_split elm (rb_insert_color_right tmp gparent parent b).1
      = rb_split elm (rb_cmds.node rb_color.RB_RED tmp gparent parent) := by
  unfold rb_insert_color_right
  by_cases h1 : rb_is_red tmp = true
  · rw [if_pos h1, rb_split_node_right _ _ _ _ _ hg, rb_split_node_right _ _ _ _ _ hg,
      rb_split_set_color, rb_toList_set_color]
  · rw [if_neg h1]
    dsimp only
    rw [rb_split_rotate_left _ _ _ _ _ hg, rb_split_node_right _ _ _ _ _ hg,
      rb_split_node_right _ _ _ _ _ hg, rb_split_set_color]
    cases b with
    | true => rw [if_pos rfl, rb_split_rotate_right_of_goes_left _ _ (hb rfl)]
    | false => rfl

theorem rb_insert_color_left_state (parent : rb_cmds) (gparent : pending_cmd) (tmp : rb_cmds)
    (b : Bool) :
    (rb_insert_color_left parent gparent tmp b).2 = rb_insert_state.elm
      ∨ (rb_insert_color_left parent gparent tmp b).2 = rb_insert_state.done := by
  unfold rb_insert_color_left
  split_ifs <;> simp

theorem rb_insert_color_right_state (tmp : rb_cmds) (gparent : pending_cmd) (parent : rb_cmds)
    (b : Bool) :
    (rb_insert_color_right tmp gparent parent b).2 = rb_insert_state.elm
      ∨ (rb_insert_color_right tmp gparent parent b).2 = rb_insert_state.done := by
  unfold rb_insert_color_right
  split_ifs <;> simp

/-- The loop of `RB_INSERT_COLOR` above a left subtree keeps the descent for
the new record. -/
theorem rb_split_insert_up_left (elm : pending_cmd) (c : rb_color) (l1 : rb_cmds)
    (p : pending_cmd) (r : rb_cmds) (st : rb_insert_state) (hp : cmp_cmd elm p < 0)
    (hr : st = rb_insert_state.parent_right → rb_goes_right elm l1) :
    rb_split elm (rb_insert_up_left c l1 p r st).1
        = (rb_split elm l1).map (fun s => (s.1, s.2.1, s.2.2 ++ p :: r.toList))
      ∧ ((rb_insert_up_left c l1 p r st).2 = rb_insert_state.parent_left →
          rb_goes_left elm (rb_insert_up_left c l1 p r st).1)
      ∧ ((rb_insert_up_left c l1 p r st).2 = rb_insert_state.parent_right →
          rb_goes_right elm (rb_insert_up_left c l1 p r st).1) := by
  cases st with
  | done =>
    refine ⟨rb_split_node_left _ _ _ _ _ hp, ?_, ?_⟩ <;> intro h <;> cases h
  | elm =>
    unfold rb_insert_up_left
    dsimp only
    split_ifs
    · exact ⟨rb_split_node_left _ _ _ _ _ hp, fun _ => hp, fun h => by simp at h⟩
    · refine ⟨rb_split_node_left _ _ _ _ _ hp, ?_, ?_⟩ <;> intro h <;> cases h
  | parent_left =>
    have hs := rb_insert_color_left_state l1 p r false
    refine ⟨?_, ?_, ?_⟩
    · show rb_split elm (rb_insert_color_left l1 p r false).1 = _
      rw [rb_split_insert_color_left elm l1 p r false hp (fun h => by cases h),
        rb_split_node_left _ _ _ _ _ hp]
    · intro h
      change (rb_insert_color_left l1 p r false).2 = _ at h
      rw [h] at hs
      rcases hs with hs | hs <;> cases hs
    · intro h
      change (rb_insert_color_left l1 p r false).2 = _ at h
      rw [h] at hs
      rcases hs with hs | hs <;> cases hs
  | parent_right =>
    have hs := rb_insert_color_left_state l1 p r true
    refine ⟨?_, ?_, ?_⟩
    · show rb_split elm (rb_insert_color_left l1 p r true).1 = _
      rw [rb_split_insert_color_left elm l1 p r true hp (fun _ => hr rfl),
        rb_split_node_left _ _ _ _ _ hp]
    · intro h
      change (rb_insert_color_left l1 p r true).2 = _ at h
      rw [h] at hs
      rcases hs with hs | hs <;> cases hs
    · intro h
      change (rb_insert_color_left l1 p r true).2 = _ at h
      rw [h] at hs
      rcases hs with hs | hs <;> cases hs

/-- The loop of `RB_INSERT_COLOR` above a right subtree keeps the descent for
the new record. -/
theorem rb_split_insert_up_right (elm : pending_cmd) (c : rb_color) (l : rb_cmds)
    (p : pending_cmd) (r1 : rb_cmds) (st : rb_insert_state) (hp : 0 < cmp_cmd elm p)
    (hl : st = rb_insert_state.parent_left → rb_goes_left elm r1) :
    rb_split elm (rb_insert_up_right c l p r1 st).1
        = (rb_split elm r1).map (fun s => (l.toList ++ p :: s.1, s.2.1, s.2.2))
      ∧ ((rb_insert_up_right c l p r1 st).2 = rb_insert_state.parent_left →
          rb_goes_left elm (rb_insert_up_right c l p r1 st).1)
      ∧ ((rb_insert_up_right c l p r1 st).2 = rb_insert_state.parent_right →
          rb_goes_right elm (rb_insert_up_right c l p r1 st).1) := by
  cases st with
  | done =>
    refine ⟨rb_split_node_right _ _ _ _ _ hp, ?_, ?_⟩ <;> intro h <;> cases h
  | elm =>
    unfold rb_insert_up_right
    dsimp only
    split_ifs
    · exact ⟨rb_split_node_right _ _ _ _ _ hp, fun h => by simp at h, fun _ => hp⟩
    · refine ⟨rb_split_node_right _ _ _ _ _ hp, ?_, ?_⟩ <;> intro h <;> cases h
  | parent_left =>
    have hs := rb_insert_color_right_state l p r1 true
    refine ⟨?_, ?_, ?_⟩
    · show rb_split elm (rb_insert_color_right l p r1 true).1 = _
      rw [rb_split_insert_color_right elm l p r1 true hp (fun _ => hl rfl),
        rb_split_node_right _ _ _ _ _ hp]
    · intro h
      change (rb_insert_color_right l p r1 true).2 = _ at h
      rw [h] at hs
      rcases hs with hs | hs <;> cases hs
    · intro h
      change (rb_insert_color_right l p r1 true).2 = _ at h
      rw [h] at hs
      rcases hs with hs | hs <;> cases hs
  | parent_right =>
    have hs := rb_insert_color_right_state l p r1 false
    refine ⟨?_, ?_, ?_⟩
    · show rb_split elm (rb_insert_color_right l p r1 false).1 = _
      rw [rb_split_insert_color_right elm l p r1 false hp (fun h => by cases h),
        rb_split_node_right _ _ _ _ _ hp]
    · intro h
      change (rb_insert_color_right l p r1 false).2 = _ at h
      rw [h] at hs
      rcases hs with hs | hs <;> cases hs
    · intro h
      change (rb_insert_color_right l p r1 false).2 = _ at h
      rw [h] at hs
      rcases hs with hs | hs <;> cases hs

/-- Where `RB_INSERT` links the new record in, the descent for it ends at the
new node after `RB_INSERT_COLOR`, with the same records to its left and to its
right. -/
theorem rb_insert_rec_inserted (elm : pending_cmd) (t : rb_cmds) :
    ∀ t1 st, rb_insert_rec elm t = rb_insert_result.inserted t1 st →
      ∃ L R, rb_insert_pos elm t = some (L, R) ∧ rb_split elm t1 = some (L, elm, R)
        ∧ (st = rb_insert_state.parent_left → rb_goes_left elm t1)
        ∧ (st = rb_insert_state.parent_right → rb_goes_right elm t1) := by
  induction t with
  | nil =>
    intro t1 st h
    simp only [rb_insert_rec, rb_insert_result.inserted.injEq] at h
    obtain ⟨rfl, rfl⟩ := h
    refine ⟨[], [], rfl, ?_, ?_, ?_⟩
    · simp [rb_split, cmp_cmd_self, rb_cmds.toList]
    · intro h
      cases h
    · intro h
      cases h
  | node c l p r ihl ihr =>
    intro t1 st h
    unfold rb_insert_rec at h
    by_cases h1 : cmp_cmd elm p < 0
    · rw [if_pos h1] at h
      cases hrec : rb_insert_rec elm l with
      | found x =>
        rw [hrec] at h
        cases h
      | inserted l1 st0 =>
        rw [hrec] at h
        simp only [rb_insert_result.inserted.injEq] at h
        obtain ⟨rfl, rfl⟩ := h
        obtain ⟨L, R, hpos, hsplit, -, hgr⟩ := ihl l1 st0 hrec
        obtain ⟨e1, e2, e3⟩ := rb_split_insert_up_left elm c l1 p r st0 h1 hgr
        refine ⟨L, R ++ p :: r.toList, ?_, ?_, e2, e3⟩
        · rw [rb_insert_pos, if_pos h1, hpos]
          rfl
        · rw [e1, hsplit]
          rfl
    · rw [if_neg h1] at h
      by_cases h2 : cmp_cmd elm p > 0
      · rw [if_pos h2] at h
        cases hrec : rb_insert_rec elm r with
        | found x =>
          rw [hrec] at h
          cases h
        | inserted r1 st0 =>
          rw [hrec] at h
          simp only [rb_insert_result.inserted.injEq] at h
          obtain ⟨rfl, rfl⟩ := h
          obtain ⟨L, R, hpos, hsplit, hgl, -⟩ := ihr r1 st0 hrec
          obtain ⟨e1, e2, e3⟩ := rb_split_insert_up_right elm c l p r1 st0 h2 hgl
          refine ⟨l.toList ++ p :: L, R, ?_, ?_, e2, e3⟩
          · rw [rb_insert_pos, if_neg h1, if_pos h2, hpos]
            rfl
          · rw [e1, hsplit]
            rfl
      · rw [if_neg h2] at h
        cases h

/-- The descent of `RB_INSERT` is that of `RB_FIND`: it meets a node that
compares equal exactly when `RB_FIND` returns it. -/
theorem rb_insert_rec_find (elm : pending_cmd) (t : rb_cmds) :
    match rb_insert_rec elm t with
    | rb_insert_result.found x => RB_FIND t elm = some x
    | rb_insert_result.inserted _ _ => RB_FIND t elm = none := by
  induction t with
  | nil => rfl
  | node c l p r ihl ihr =>
    unfold rb_insert_rec RB_FIND
    by_cases h1 : cmp_cmd elm p < 0
    · rw [if_pos h1, if_pos h1]
      cases hrec : rb_insert_rec elm l with
      | found x =>
        rw [hrec] at ihl
        exact ihl
      | inserted l1 st0 =>
        rw [hrec] at ihl
        exact ihl
    · rw [if_neg h1, if_neg h1]
      by_cases h2 : cmp_cmd elm p > 0
      · rw [if_pos h2, if_pos h2]
        cases hrec : rb_insert_rec elm r with
        | found x =>
          rw [hrec] at ihr
          exact ihr
        | inserted r1 st0 =>
          rw [hrec] at ihr
          exact ihr
      · rw [if_neg h2, if_neg h2]

/-- `RB_INSERT` when `RB_FIND` finds no node for the record: the record is
linked in at the leaf where the descent ends, and afterwards the descent for it
ends at the new node. -/
theorem RB_INSERT_of_find_none (head : rb_cmds) (elm : pending_cmd)
    (h : RB_FIND head elm = none) :
    ∃ head1 L R, RB_INSERT head elm = (head1, none) ∧ rb_insert_pos elm head = some (L, R)
      ∧ rb_split elm head1 = some (L, elm, R) := by
  have hf := rb_insert_rec_find elm head
  unfold RB_INSERT
  cases hrec : rb_insert_rec elm head with
  | found x =>
    rw [hrec] at hf
    rw [h] at hf
    cases hf
  | inserted t1 st =>
    obtain ⟨L, R, hpos, hsplit, -, -⟩ := rb_insert_rec_inserted elm head t1 st hrec
    exact ⟨_, L, R, rfl, hpos, by rw [rb_split_set_color]; exact hsplit⟩

/-- `RB_INSERT` when `RB_FIND` finds a node for the record: that node is
returned and the tree is left as it is. -/
theorem RB_INSERT_of_find_some (head : rb_cmds) (elm x : pending_cmd)
    (h : RB_FIND head elm = some x) : RB_INSERT head elm = (head, some x) := by
  have hf := rb_insert_rec_find elm head
  unfold RB_INSERT
  cases hrec : rb_insert_rec elm head with
  | found y =>
    rw [hrec] at hf
    rw [h] at hf
    simp only [Option.some.injEq] at hf
    rw [hf]
  | inserted t1 st =>
    rw [hrec] at hf
    rw [h] at hf
    cases hf

theorem rb_toList_remove_color_left_sibling (pc : rb_color) (elm : rb_cmds) (py : pending_cmd)
    (tmp : rb_cmds) :
    (rb_remove_color_left_sibling pc elm py tmp).1.toList = elm.toList ++ py :: tmp.toList := by
  unfold rb_remove_color_left_sibling
  cases tmp with
  | nil => rfl
  | node tc tl te tr =>
    dsimp only
    split_ifs with h1 h2
    · rfl
    · have h := rb_toList_rotate_right
        (rb_cmds.node rb_color.RB_RED (rb_set_color rb_color.RB_BLACK tl) te tr)
      revert h
      cases RB_ROTATE_RIGHT
          (rb_cmds.node rb_color.RB_RED (rb_set_color rb_color.RB_BLACK tl) te tr) with
      | nil =>
        intro h
        simp [rb_cmds.toList] at h
      | node c1 l1 e1 r1 =>
        intro h
        dsimp only
        rw [rb_toList_rotate_left]
        simp only [rb_cmds.toList, rb_toList_set_color] at h ⊢
        rw [h]
    · dsimp only
      rw [rb_toList_rotate_left]
      simp only [rb_cmds.toList, rb_toList_set_color]

theorem rb_toList_remove_color_right_sibling (pc : rb_color) (tmp : rb_cmds) (py : pending_cmd)
    (elm : rb_cmds) :
    (rb_remove_color_right_sibling pc tmp py elm).1.toList = tmp.toList ++ py :: elm.toList := by
  unfold rb_remove_color_right_sibling
  cases tmp with
  | nil => rfl
  | node tc tl te tr =>
    dsimp only
    split_ifs with h1 h2
    · rfl
    · have h := rb_toList_rotate_left
        (rb_cmds.node rb_color.RB_RED tl te (rb_set_color rb_color.RB_BLACK tr))
      revert h
      cases RB_ROTATE_LEFT
          (rb_cmds.node rb_color.RB_RED tl te (rb_set_color rb_color.RB_BLACK tr)) with
      | nil =>
        intro h
        simp [rb_cmds.toList] at h
      | node c1 l1 e1 r1 =>
        intro h
        dsimp only
        rw [rb_toList_rotate_right]
        simp only [rb_cmds.toList, rb_toList_set_color] at h ⊢
        rw [h]
    · dsimp only
      rw [rb_toList_rotate_right]
      simp only [rb_cmds.toList, rb_toList_set_color]

theorem rb_toList_remove_color_left (pc : rb_color) (elm : rb_cmds) (py : pending_cmd)
    (tmp : rb_cmds) :
    (rb_remove_color_left pc elm py tmp).1.toList = elm.toList ++ py :: tmp.toList := by
  unfold rb_remove_color_left
  split_ifs with h1
  · simp only [rb_cmds.toList, rb_toList_set_color]
  · split
    · rename_i tl te tr
      have h := rb_toList_remove_color_left_sibling rb_color.RB_RED elm py tl
      split
      · rename_i sub heq
        rw [heq] at h
        simp only [rb_cmds.toList, rb_toList_set_color] at h ⊢
        rw [h]
        simp
      · rename_i sub st hst heq
        rw [heq] at h
        simp only [rb_cmds.toList] at h ⊢
        rw [h]
        simp
    · exact rb_toList_remove_color_left_sibling pc elm py tmp

theorem rb_toList_remove_color_right (pc : rb_color) (tmp : rb_cmds) (py : pending_cmd)
    (elm : rb_cmds) :
    (rb_remove_color_right pc tmp py elm).1.toList = tmp.toList ++ py :: elm.toList := by
  unfold rb_remove_color_right
  split_ifs with h1
  · simp only [rb_cmds.toList, rb_toList_set_color]
  · split
    · rename_i tl te tr
      have h := rb_toList_remove_color_right_sibling rb_color.RB_RED tr py elm
      split
      · rename_i sub heq
        rw [heq] at h
        simp only [rb_cmds.toList, rb_toList_set_color] at h ⊢
        rw [h]
        simp
      · rename_i sub st hst heq
        rw [heq] at h
        simp only [rb_cmds.toList] at h ⊢
        rw [h]
        simp
    · exact rb_toList_remove_color_right_sibling pc tmp py elm

theorem rb_toList_remove_up_left (c : rb_color) (l1 : rb_cmds) (y : pending_cmd) (r : rb_cmds)
    (st : rb_remove_state) :
    (rb_remove_up_left c l1 y r st).1.toList = l1.toList ++ y :: r.toList := by
  cases st with
  | elm => exact rb_toList_remove_color_left c l1 y r
  | done => rfl
  | root => rfl

theorem rb_toList_remove_up_right (c : rb_color) (l : rb_cmds) (y : pending_cmd) (r1 : rb_cmds)
    (st : rb_remove_state) :
    (rb_remove_up_right c l y r1 st).1.toList = l.toList ++ y :: r1.toList := by
  cases st with
  | elm => exact rb_toList_remove_color_right c l y r1
  | done => rfl
  | root => rfl

theorem rb_remove_min_toList (t : rb_cmds) :
    match rb_remove_min t with
    | none => t = rb_cmds.nil
    | some (s, t1, _) => t.toList = s :: t1.toList := by
  induction t with
  | nil => rfl
  | node c l y r ihl _ =>
    unfold rb_remove_min
    cases hmin : rb_remove_min l with
    | none =>
      rw [hmin] at ihl
      dsimp only at ihl ⊢
      rw [ihl]
      rfl
    | some m =>
      obtain ⟨s, l1, st⟩ := m
      rw [hmin] at ihl
      dsimp only at ihl ⊢
      rw [rb_toList_remove_up_left]
      simp only [rb_cmds.toList]
      rw [ihl]
      rfl

theorem rb_toList_remove_node (c : rb_color) (l r : rb_cmds) :
    (rb_remove_node c l r).1.toList = l.toList ++ r.toList := by
  unfold rb_remove_node
  split
  · rfl
  · simp [rb_cmds.toList]
  · have h := rb_remove_min_toList r
    cases hmin : rb_remove_min r with
    | none =>
      rw [hmin] at h
      dsimp only at h ⊢
      rw [h]
      simp [rb_cmds.toList]
    | some m =>
      obtain ⟨s, r1, st⟩ := m
      rw [hmin] at h
      dsimp only at h ⊢
      rw [rb_toList_remove_up_right, h]

/-- What `RB_REMOVE` leaves of the records: those to the left and to the right
of the node at which the descent ends, in their order. -/
theorem rb_toList_remove_rec (elm : pending_cmd) (t : rb_cmds) :
    (rb_remove_rec elm t).1.toList
      = match rb_split elm t with
        | none => t.toList
        | some s => s.1 ++ s.2.2 := by
  induction t with
  | nil => rfl
  | node c l y r ihl ihr =>
    unfold rb_remove_rec rb_split
    by_cases h1 : cmp_cmd elm y < 0
    · rw [if_pos h1, if_pos h1, rb_toList_remove_up_left, ihl]
      cases rb_split elm l with
      | none => rfl
      | some s => simp
    · rw [if_neg h1, if_neg h1]
      by_cases h2 : cmp_cmd elm y > 0
      · rw [if_pos h2, if_pos h2, rb_toList_remove_up_right, ihr]
        cases rb_split elm r with
        | none => rfl
        | some s => simp
      · rw [if_neg h2, if_neg h2, rb_toList_remove_node]

theorem RB_REMOVE_toList (head : rb_cmds) (elm : pending_cmd) :
    (RB_REMOVE head elm).toList
      = match rb_split elm head with
        | none => head.toList
        | some s => s.1 ++ s.2.2 := by
  rw [← rb_toList_remove_rec]
  unfold RB_REMOVE
  split
  · rename_i t heq
    rw [heq]
  · rename_i t st hst heq
    rw [heq, rb_toList_set_color]

theorem cmp_cmd_congr_left (e1 e2 y : pending_cmd) (h : e1.opaque_id = e2.opaque_id) :
    cmp_cmd e1 y = cmp_cmd e2 y := by
  unfold cmp_cmd
  rw [h]

theorem RB_FIND_some (head : rb_cmds) (elm e : pending_cmd) (h : RB_FIND head elm = some e) :
    e ∈ head.toList ∧ cmp_cmd elm e = 0 := by
  rw [RB_FIND_eq_split] at h
  simp only [Option.map_eq_some'] at h
  obtain ⟨s, hs, rfl⟩ := h
  obtain ⟨h1, h2⟩ := rb_split_some elm head s.1 s.2.1 s.2.2 hs
  exact ⟨by rw [h1]; simp, h2⟩

theorem RB_FIND_congr (head : rb_cmds) (e1 e2 : pending_cmd)
    (h : e1.opaque_id = e2.opaque_id) : RB_FIND head e1 = RB_FIND head e2 := by
  rw [RB_FIND_eq_split, RB_FIND_eq_split,
    rb_split_congr e1 e2 (fun y => cmp_cmd_congr_left e1 e2 y h)]

/-- `RB_INSERT` of a record for which `RB_FIND` finds no node adds it to the
records of the tree, between those the descent passed on its left and on its
right; the descent for the record then ends at its node. -/
theorem RB_INSERT_toList (head : rb_cmds) (elm : pending_cmd) (h : RB_FIND head elm = none) :
    ∃ L R, (RB_INSERT head elm).2 = none ∧ rb_insert_pos elm head = some (L, R)
      ∧ head.toList = L ++ R ∧ (RB_INSERT head elm).1.toList = L ++ elm :: R
      ∧ rb_split elm (RB_INSERT head elm).1 = some (L, elm, R) := by
  obtain ⟨head1, L, R, h1, h2, h3⟩ := RB_INSERT_of_find_none head elm h
  rw [h1]
  exact ⟨L, R, rfl, h2, rb_insert_pos_toList elm head L R h2,
    (rb_split_some elm head1 L elm R h3).1, h3⟩

/-- `RB_REMOVE` of the record that `RB_INSERT` has just linked in gives back
the records of before, in their order. -/
theorem RB_REMOVE_INSERT_toList (head : rb_cmds) (elm : pending_cmd)
    (h : RB_FIND head elm = none) :
    (RB_REMOVE (RB_INSERT head elm).1 elm).toList = head.toList := by
  obtain ⟨L, R, -, -, h1, -, h2⟩ := RB_INSERT_toList head elm h
  rw [RB_REMOVE_toList, h2, h1]

/-- In a well-formed tree `RB_FIND` returns `NULL` for a key whose token no
record carries up to a multiple of 2^32. -/
theorem RB_FIND_eq_none (head : rb_cmds) (key : pending_cmd)
    (h : ∀ c ∈ head.toList, cmp_cmd key c ≠ 0) : RB_FIND head key = none := by
  cases hf : RB_FIND head key with
  | none => rfl
  | some e =>
    obtain ⟨h1, h2⟩ := RB_FIND_some head key e hf
    exact absurd h2 (h e h1)

theorem new_cmd_returned (env : Env) (api : memcached_api) (msg : memcached_msg)
    (cb : Option Nat) (data : Nat) (r : Result (Option pending_cmd))
    (h : new_cmd env api msg cb data = Outcome.returned r) :
    (r.ret = none ∧ r.api = api ∧ env.calloc_ok = false)
      ∨ (r.ret = some ⟨msg.opaque_id, msg.opcode, cb, data⟩
          ∧ r.api = { api with pending_cmd_list :=
              (RB_INSERT api.pending_cmd_list ⟨msg.opaque_id, msg.opcode, cb, data⟩).1 }
          ∧ RB_FIND api.pending_cmd_list ⟨msg.opaque_id, msg.opcode, cb, data⟩ = none
          ∧ env.calloc_ok = true) := by
  unfold new_cmd at h
  by_cases hc : env.calloc_ok = false
  · rw [if_pos hc] at h
    simp only [Outcome.returned.injEq] at h
    subst h
    exact Or.inl ⟨rfl, rfl, hc⟩
  · rw [if_neg hc] at h
    right
    cases hf : RB_FIND api.pending_cmd_list ⟨msg.opaque_id, msg.opcode, cb, data⟩ with
    | some e =>
      simp only [RB_INSERT_of_find_some _ _ _ hf] at h
      cases h
    | none =>
      obtain ⟨head1, L, R, h1, -, -⟩ := RB_INSERT_of_find_none _ _ hf
      simp only [h1, Outcome.returned.injEq] at h
      subst h
      exact ⟨rfl, by rw [h1], rfl, by simpa using hc⟩

theorem new_cmd_fresh (env : Env) (api : memcached_api) (msg : memcached_msg)
    (cb : Option Nat) (data : Nat) (hc : env.calloc_ok = true)
    (hf : RB_FIND api.pending_cmd_list ⟨msg.opaque_id, msg.opcode, cb, data⟩ = none) :
    new_cmd env api msg cb data
      = Outcome.returned ⟨some ⟨msg.opaque_id, msg.opcode, cb, data⟩,
          { api with pending_cmd_list :=
              (RB_INSERT api.pending_cmd_list ⟨msg.opaque_id, msg.opcode, cb, data⟩).1 },
          [], none⟩ := by
  obtain ⟨head1, L, R, h1, -, -⟩ := RB_INSERT_of_find_none _ _ hf
  unfold new_cmd
  simp [hc, h1]

theorem fail_free_key_returned (api : memcached_api) (msg : memcached_msg) (ev : List Event)
    (en : Option Nat) (r : Result Int) (h : fail_free_key api msg ev en = Outcome.returned r) :
    r.ret = -1 ∧ r.api = api ∧ r.errno = en := by
  unfold fail_free_key fail at h
  split at h <;> (simp only [Outcome.returned.injEq] at h; subst h; exact ⟨rfl, rfl, rfl⟩)

theorem fail_free_cmd_returned (api : memcached_api) (msg : memcached_msg) (cmd : pending_cmd)
    (ev : List Event) (r : Result Int) (h : fail_free_cmd api msg cmd ev = Outcome.returned r) :
    r.ret = -1
      ∧ r.api = { api with pending_cmd_list := RB_REMOVE api.pending_cmd_list cmd } := by
  unfold fail_free_cmd at h
  have := fail_free_key_returned _ _ _ _ _ h
  exact ⟨this.1, this.2.1⟩

/-- The events of a successful `connect_and_send`: the optional connect, then
the send of `msg2` over `conn`. -/
theorem connect_and_send_returned (env : Env) (api1 : memcached_api) (msg2 : memcached_msg)
    (cmd : pending_cmd) (i : Nat) (r : Result Int)
    (h : connect_and_send env api1 msg2 cmd i = Outcome.returned r) :
    (r.ret = -1 ∧ r.api.pending_cmd_list = RB_REMOVE api1.pending_cmd_list cmd
        ∧ r.api.sequence_id = api1.sequence_id)
      ∨ (r.ret = 0 ∧ r.api.pending_cmd_list = api1.pending_cmd_list
        ∧ r.api.sequence_id = (api1.sequence_id + 1) % UINT32_SIZE
        ∧ ∃ conn, r.events = [Event.memcached_send conn msg2]
            ∨ r.events = [Event.memcached_init api1.event_base
                (api1.host_list.getD i default).sockaddr api1.conn_type,
                Event.memcached_send conn msg2]) := by
  unfold connect_and_send at h
  dsimp only at h
  split at h
  · split at h
    · have := fail_free_cmd_returned _ _ _ _ _ h
      rw [this.2]
      exact Or.inl ⟨this.1, rfl, rfl⟩
    · simp only [Outcome.returned.injEq] at h
      subst h
      exact Or.inr ⟨rfl, rfl, rfl, _, Or.inl rfl⟩
  · split at h
    · have := fail_free_cmd_returned _ _ _ _ _ h
      rw [this.2]
      exact Or.inl ⟨this.1, rfl, rfl⟩
    · split at h
      · have := fail_free_cmd_returned _ _ _ _ _ h
        rw [this.2]
        exact Or.inl ⟨this.1, rfl, rfl⟩
      · simp only [Outcome.returned.injEq] at h
        subst h
        exact Or.inr ⟨rfl, rfl, rfl, _, Or.inr rfl⟩

theorem apply_keytrans_opcode (api : memcached_api) (msg msg1 : memcached_msg)
    (h : apply_keytrans api msg = some msg1) :
    msg1.opcode = msg.opcode := by
  unfold apply_keytrans at h
  split at h
  · simp only [Option.some.injEq] at h
    rw [h]
  · split at h
    · simp at h
    · simp only [Option.some.injEq] at h
      rw [← h]

/-- Every way in which `server_command_poxy` returns: with -1 and the tree
untouched, with -1 after the new record was linked in and unlinked again, or
with 0 and the new record linked in. -/
theorem server_command_poxy_returned (env : Env) (api : memcached_api) (msg : memcached_msg)
    (cb : Option Nat) (data : Nat) (r : Result Int)
    (h : server_command_poxy env api msg cb data = Outcome.returned r) :
    (r.ret = -1 ∧ r.api.sequence_id = api.sequence_id
        ∧ (r.api.pending_cmd_list = api.pending_cmd_list
          ∨ (RB_FIND api.pending_cmd_list ⟨api.sequence_id, msg.opcode, cb, data⟩ = none
            ∧ r.api.pending_cmd_list
              = RB_REMOVE
                  (RB_INSERT api.pending_cmd_list ⟨api.sequence_id, msg.opcode, cb, data⟩).1
                  ⟨api.sequence_id, msg.opcode, cb, data⟩)))
      ∨ (r.ret = 0
        ∧ r.api.pending_cmd_list
          = (RB_INSERT api.pending_cmd_list ⟨api.sequence_id, msg.opcode, cb, data⟩).1
        ∧ r.api.sequence_id = (api.sequence_id + 1) % UINT32_SIZE
        ∧ RB_FIND api.pending_cmd_list ⟨api.sequence_id, msg.opcode, cb, data⟩ = none
        ∧ ∃ msg1 conn, apply_keytrans api msg = some msg1
            ∧ (r.events = [Event.memcached_send conn { msg1 with opaque_id := api.sequence_id }]
              ∨ ∃ e0, r.events
                  = [e0, Event.memcached_send conn { msg1 with opaque_id := api.sequence_id }]
                ∧ ∀ c m, e0 ≠ Event.memcached_send c m)) := by
  unfold server_command_poxy at h
  split at h
  · simp only [fail, Outcome.returned.injEq] at h
    subst h
    exact Or.inl ⟨rfl, rfl, Or.inl rfl⟩
  · rename_i msg1 hk
    have hop := apply_keytrans_opcode _ _ _ hk
    split at h
    · have := fail_free_key_returned _ _ _ _ _ h
      rw [this.2.1]
      exact Or.inl ⟨this.1, rfl, Or.inl rfl⟩
    · split at h
      · simp at h
      · rename_i r1 hnew
        rcases new_cmd_returned _ _ _ _ _ _ hnew with ⟨hr, hapi, -⟩ | ⟨hr, hapi, hfind, -⟩
        · rw [hr] at h
          have := fail_free_key_returned _ _ _ _ _ h
          rw [this.2.1]
          exact Or.inl ⟨this.1, rfl, Or.inl rfl⟩
        · rw [hr] at h
          dsimp only at h hr hapi hfind
          rw [hop] at hfind hapi
          rcases connect_and_send_returned _ _ _ _ _ _ h with ⟨h1, h2, h3⟩ | ⟨h1, h2, h3, conn, h4⟩
          · left
            rw [h2, h3, hapi]
            exact ⟨h1, rfl, Or.inr ⟨hfind, by rw [hop]⟩⟩
          · right
            rw [h2, h3, hapi]
            refine ⟨h1, rfl, rfl, hfind, msg1, conn, hk, ?_⟩
            rcases h4 with h4 | h4
            · exact Or.inl h4
            · exact Or.inr ⟨_, h4, by intro c m hcm; cases hcm⟩

theorem issue_eq_poxy (env : Env) (api : memcached_api) (req : Request) (cb : Option Nat)
    (data : Nat) : issue env api req cb data = server_command_poxy env api req.msg cb data := by
  cases req <;> rfl

theorem Request.msg_opcode (req : Request) : req.msg.opcode = req.kind := by
  cases req <;> rfl

theorem connect_and_send_ok (env : Env) (api1 : memcached_api) (msg2 : memcached_msg)
    (cmd : pending_cmd) (i conn : Nat) (hconn : host_connection env api1 i = some conn)
    (hsend : env.memcached_send conn msg2 ≠ -1) :
    ∃ r, connect_and_send env api1 msg2 cmd i = Outcome.returned r ∧ r.ret = 0
      ∧ sent_messages r.events = [msg2]
      ∧ r.api.pending_cmd_list = api1.pending_cmd_list
      ∧ r.api.sequence_id = (api1.sequence_id + 1) % UINT32_SIZE := by
  unfold host_connection at hconn
  unfold connect_and_send
  dsimp only
  split at hconn
  · rename_i c hc
    simp only [Option.some.injEq] at hconn
    subst hconn
    rw [if_neg hsend]
    exact ⟨_, rfl, rfl, rfl, rfl, rfl⟩
  · rw [hconn]
    dsimp only
    rw [if_neg hsend]
    exact ⟨_, rfl, rfl, rfl, rfl, rfl⟩

/-- What `cb_result` does with an accepted response, by callback and opcode. -/
theorem cb_result_accepted (api : memcached_api) (in_msg : memcached_msg) (cmd : pending_cmd)
    (hfind : find_cmd api in_msg.opaque_id = some cmd)
    (hopcode : in_msg.opcode = cmd.sent_command) :
    (cmd.callbacks = none →
        cb_result api in_msg = Outcome.returned ⟨(),
          { api with pending_cmd_list := RB_REMOVE api.pending_cmd_list cmd },
          [Event.free_cmd cmd], none⟩)
      ∧ (∀ f, cmd.callbacks = some f →
          (in_msg.opcode = memcached_cmd.MEMCACHED_CMD_GET
            ∨ in_msg.opcode = memcached_cmd.MEMCACHED_CMD_GETK) →
          cb_result api in_msg = Outcome.returned ⟨(),
            { api with pending_cmd_list := RB_REMOVE api.pending_cmd_list cmd },
            [Event.callback_get f in_msg.status in_msg.key in_msg.key_len in_msg.data
               in_msg.data_len in_msg.cas api.user_data cmd.callback_data,
             Event.free_cmd cmd], none⟩)
      ∧ (∀ f, cmd.callbacks = some f →
          (in_msg.opcode = memcached_cmd.MEMCACHED_CMD_ADD
            ∨ in_msg.opcode = memcached_cmd.MEMCACHED_CMD_SET
            ∨ in_msg.opcode = memcached_cmd.MEMCACHED_CMD_REPLACE) →
          cb_result api in_msg = Outcome.returned ⟨(),
            { api with pending_cmd_list := RB_REMOVE api.pending_cmd_list cmd },
            [Event.callback_add f in_msg.status in_msg.cas api.user_data cmd.callback_data,
             Event.free_cmd cmd], none⟩) := by
  refine ⟨?_, ?_, ?_⟩
  · intro hcb
    unfold cb_result
    rw [hfind]
    dsimp only
    rw [if_neg (by simp [hopcode]), hcb]
  · intro f hcb hop
    unfold cb_result
    rw [hfind]
    dsimp only
    rw [if_neg (by simp [hopcode]), hcb]
    dsimp only
    rw [if_pos hop]
  · intro f hcb hop
    have hnot : ¬ (in_msg.opcode = memcached_cmd.MEMCACHED_CMD_GET
        ∨ in_msg.opcode = memcached_cmd.MEMCACHED_CMD_GETK) := by
      rcases hop with h | h | h <;> rw [h] <;> simp
    unfold cb_result
    rw [hfind]
    dsimp only
    rw [if_neg (by simp [hopcode]), hcb]
    dsimp only
    rw [if_neg hnot, if_pos hop]

/-- C2: round trip.  When an issue with a non-null callback `f` and context
`data` returns 0, delivering to `cb_result` a response whose token and opcode
are those of the message that was sent is accepted (no fatal failure), invokes
`f` exactly once with `data`, and leaves the pending-request index with the
records it held before the issue, in their order. -/
theorem issue_then_result_round_trip (env : Env) (api : memcached_api) (req : Request)
    (f : Nat) (data : Nat) (r : Result Int) (conn : Nat) (m in_msg : memcached_msg)
    (h : issue env api req (some f) data = Outcome.returned r) (hret : r.ret = 0)
    (hsent : Event.memcached_send conn m ∈ r.events)
    (htoken : in_msg.opaque_id = m.opaque_id) (hopcode : in_msg.opcode = m.opcode) :
    ∃ r2, cb_result r.api in_msg = Outcome.returned r2
      ∧ callbacks_invoked r2.events = [(f, data)]
      ∧ r2.api.pending_cmd_list.toList = api.pending_cmd_list.toList := by
  rw [issue_eq_poxy] at h
  rcases server_command_poxy_returned _ _ _ _ _ _ h with
    ⟨h1, -⟩ | ⟨-, h2, -, hnone, msg1, c, hk, hev⟩
  · rw [hret] at h1
    exact absurd h1 (by decide)
  · have hm : m = { msg1 with opaque_id := api.sequence_id } := by
      rcases hev with hev | ⟨e0, hev, hne⟩
      · rw [hev] at hsent
        simp only [List.mem_singleton, Event.memcached_send.injEq] at hsent
        exact hsent.2
      · rw [hev] at hsent
        simp only [List.mem_cons, List.mem_singleton, List.not_mem_nil, or_false] at hsent
        rcases hsent with hs | hs
        · exact absurd hs.symm (hne conn m)
        · simp only [Event.memcached_send.injEq] at hs
          exact hs.2
    have hop1 : in_msg.opcode = req.kind := by
      rw [hopcode, hm]
      dsimp only
      rw [apply_keytrans_opcode _ _ _ hk, Request.msg_opcode]
    have htok1 : in_msg.opaque_id = api.sequence_id := by
      rw [htoken, hm]
    rw [Request.msg_opcode] at h2 hnone
    obtain ⟨L, R, -, -, hl, -, hsplit⟩ := RB_INSERT_toList _ _ hnone
    have hfind : find_cmd r.api in_msg.opaque_id
        = some ⟨api.sequence_id, req.kind, some f, data⟩ := by
      unfold find_cmd
      rw [h2, RB_FIND_eq_split,
        rb_split_congr _ ⟨api.sequence_id, req.kind, some f, data⟩
          (fun y => cmp_cmd_congr_left _ _ y htok1), hsplit]
      rfl
    obtain ⟨-, hget, hadd⟩ := cb_result_accepted r.api in_msg _ hfind hop1
    have hlist : (RB_REMOVE r.api.pending_cmd_list
        ⟨api.sequence_id, req.kind, some f, data⟩).toList = api.pending_cmd_list.toList := by
      rw [h2, RB_REMOVE_toList, hsplit, hl]
    cases req with
    | get key key_len =>
      exact ⟨_, hget f rfl (Or.inr hop1), rfl, hlist⟩
    | add key key_len d dl =>
      exact ⟨_, hadd f rfl (Or.inl hop1), rfl, hlist⟩
    | set key key_len d dl cas fl ex =>
      exact ⟨_, hadd f rfl (Or.inr (Or.inl hop1)), rfl, hlist⟩

theorem server_command_poxy_ok (env : Env) (api : memcached_api) (msg msg1 : memcached_msg)
    (cb : Option Nat) (data : Nat) (i : Nat) (e : Option Nat) (conn : Nat)
    (hkey : apply_keytrans api msg = some msg1)
    (hhost : get_host api msg1.key msg1.key_len = (some i, e))
    (halloc : env.calloc_ok = true)
    (hfresh : find_cmd api api.sequence_id = none)
    (hconn : host_connection env api i = some conn)
    (hsend : env.memcached_send conn { msg1 with opaque_id := api.sequence_id } ≠ -1) :
    ∃ r, server_command_poxy env api msg cb data = Outcome.returned r ∧ r.ret = 0
      ∧ sent_messages r.events = [{ msg1 with opaque_id := api.sequence_id }]
      ∧ r.api.pending_cmd_list
          = (RB_INSERT api.pending_cmd_list ⟨api.sequence_id, msg.opcode, cb, data⟩).1
      ∧ RB_FIND api.pending_cmd_list ⟨api.sequence_id, msg.opcode, cb, data⟩ = none
      ∧ r.api.sequence_id = (api.sequence_id + 1) % UINT32_SIZE := by
  have hfind : RB_FIND api.pending_cmd_list ⟨api.sequence_id, msg1.opcode, cb, data⟩ = none := by
    rw [← hfresh]
    exact RB_FIND_congr _ _ _ rfl
  have hnew := new_cmd_fresh env api { msg1 with opaque_id := api.sequence_id } cb data halloc hfind
  unfold server_command_poxy
  rw [hkey]
  dsimp only
  rw [hhost]
  dsimp only
  rw [hnew]
  dsimp only
  obtain ⟨r, hr, h1, h2, h3, h4⟩ := connect_and_send_ok env
    { api with pending_cmd_list :=
        (RB_INSERT api.pending_cmd_list ⟨api.sequence_id, msg1.opcode, cb, data⟩).1 }
    { msg1 with opaque_id := api.sequence_id } ⟨api.sequence_id, msg1.opcode, cb, data⟩ i conn
    hconn hsend
  refine ⟨r, hr, h1, h2, ?_, ?_, h4⟩
  · rw [h3, apply_keytrans_opcode _ _ _ hkey]
  · rw [← apply_keytrans_opcode _ _ _ hkey]
    exact hfind

/-- C3 (amended): for every client state and every request issued through
memcached_api_get, _add or _set for which key transform, host selection, record
allocation, connect and send all succeed and the token counter's value is not
already pending, the call returns 0; the one message handed to the transport is
the transformed message with `opaque` equal to the counter's value before the
call; the index afterwards holds the previous records, in their order, plus one
record with that token, kind GETK, ADD or SET respectively and the caller's
callback and context; the counter afterwards is its previous value plus 1
modulo 2^32. -/
theorem issue_success (env : Env) (api : memcached_api) (req : Request)
    (callback_func : Option Nat) (callback_data : Nat) (msg1 : memcached_msg) (i : Nat)
    (e : Option Nat) (conn : Nat)
    (hkey : apply_keytrans api req.msg = some msg1)
    (hhost : get_host api msg1.key msg1.key_len = (some i, e))
    (halloc : env.calloc_ok = true)
    (hfresh : find_cmd api api.sequence_id = none)
    (hconn : host_connection env api i = some conn)
    (hsend : env.memcached_send conn { msg1 with opaque_id := api.sequence_id } ≠ -1) :
    ∃ r, issue env api req callback_func callback_data = Outcome.returned r ∧ r.ret = 0
      ∧ sent_messages r.events = [{ msg1 with opaque_id := api.sequence_id }]
      ∧ (∃ L R, api.pending_cmd_list.toList = L ++ R
          ∧ r.api.pending_cmd_list.toList
            = L ++ ⟨api.sequence_id, req.kind, callback_func, callback_data⟩ :: R)
      ∧ r.api.sequence_id = (api.sequence_id + 1) % UINT32_SIZE := by
  rw [issue_eq_poxy, ← Request.msg_opcode]
  obtain ⟨r, hr, h1, h2, h3, hnone, h4⟩ := server_command_poxy_ok env api req.msg msg1
    callback_func callback_data i e conn hkey hhost halloc hfresh hconn hsend
  obtain ⟨L, R, -, -, hl, hl1, -⟩ := RB_INSERT_toList _ _ hnone
  exact ⟨r, hr, h1, h2, ⟨L, R, hl, by rw [h3]; exact hl1⟩, h4⟩

/-- C3 as stated fails: on `api_wrapped` (counter 0, token 0 still pending) key
transform, host selection, record allocation, connect and send all succeed,
yet memcached_api_get does not return 0: it ends in the fatal failure of
`new_cmd`. -/
theorem issue_success_counterexample :
    apply_keytrans api_wrapped (Request.get [102, 111, 111] 3).msg
        = some (Request.get [102, 111, 111] 3).msg
      ∧ get_host api_wrapped [102, 111, 111] 3 = (some 0, none)
      ∧ env_ok.calloc_ok = true
      ∧ host_connection env_ok api_wrapped 0 = some 1
      ∧ (∀ m, env_ok.memcached_send 1 m ≠ -1)
      ∧ issue env_ok api_wrapped (Request.get [102, 111, 111] 3) (some 8) 6
          = Outcome.core_me "Elment with this opaque id already exists in the tree" [] := by
  refine ⟨rfl, rfl, rfl, rfl, ?_, rfl⟩
  intro m
  show (0 : Int) ≠ -1
  decide

/-- Witness for `issue_success`: a get on `api_one` over a transport that
connects and sends. -/
theorem issue_success_witness :
    ∃ r, issue env_ok api_one (Request.get [102, 111, 111] 3) (some 7) 5 = Outcome.returned r
      ∧ r.ret = 0
      ∧ sent_messages r.events = [{ msg_foo with opaque_id := api_one.sequence_id }]
      ∧ (∃ L R, api_one.pending_cmd_list.toList = L ++ R
          ∧ r.api.pending_cmd_list.toList
            = L ++ ⟨api_one.sequence_id, (Request.get [102, 111, 111] 3).kind, some 7, 5⟩ :: R)
      ∧ r.api.sequence_id = (api_one.sequence_id + 1) % UINT32_SIZE :=
  issue_success env_ok api_one (Request.get [102, 111, 111] 3) (some 7) 5 msg_foo 0 none 1
    rfl rfl rfl rfl rfl (by decide)

/-- Witness for `issue_then_result_round_trip`: a get on `api_three`, then the
response that echoes token 3 and opcode GETK. -/
theorem issue_then_result_round_trip_witness :
    ∃ r2, cb_result issued_result.api response_three = Outcome.returned r2
      ∧ callbacks_invoked r2.events = [(7, 5)]
      ∧ r2.api.pending_cmd_list.toList = api_three.pending_cmd_list.toList :=
  issue_then_result_round_trip env_ok api_three (Request.get [102, 111, 111] 3) 7 5
    issued_result 1 { msg_foo with opaque_id := 3 } response_three rfl rfl
    (by simp [issued_result]) rfl rfl

/-! ## Request issuance: failure leaves nothing behind -/

/-- C1: whenever `server_command_poxy` (the body of memcached_api_get, _add and
_set) returns -1, the pending-request index after the call holds the records
it held before the call, in the same order, and the token counter
`sequence_id` is unchanged. -/
theorem server_command_poxy_fail_frame (env : Env) (api : memcached_api) (msg : memcached_msg)
    (callback_func : Option Nat) (callback_data : Nat) (r : Result Int)
    (h : server_command_poxy env api msg callback_func callback_data = Outcome.returned r)
    (hret : r.ret = -1) :
    r.api.pending_cmd_list.toList = api.pending_cmd_list.toList
      ∧ r.api.sequence_id = api.sequence_id := by
  rcases server_command_poxy_returned _ _ _ _ _ _ h with ⟨-, h2, h3⟩ | ⟨h1, -⟩
  · refine ⟨?_, h2⟩
    rcases h3 with h3 | ⟨hfind, h3⟩
    · rw [h3]
    · rw [h3]
      exact RB_REMOVE_INSERT_toList _ _ hfind
  · rw [hret] at h1
    exact absurd h1 (by decide)

/-- Witness for `server_command_poxy_fail_frame`: a get on `api_three` over a
transport on which the send fails. -/
theorem server_command_poxy_fail_frame_witness :
    server_command_poxy env_no_send api_three msg_foo (some 7) 5
        = Outcome.returned fail_result
      ∧ fail_result.ret = -1
      ∧ fail_result.api.pending_cmd_list.toList = api_three.pending_cmd_list.toList
      ∧ fail_result.api.sequence_id = api_three.sequence_id :=
  ⟨rfl, rfl,
    server_command_poxy_fail_frame env_no_send api_three msg_foo (some 7) 5 fail_result rfl rfl⟩

/-! ## Response demultiplexing -/

/-- C5: for tokens that are 32-bit values, if no pending record has the
response's token, or the record found has a command kind different from the
response's opcode, `cb_result` ends in the fatal failure CORE_ME: it does not
return, and no completion callback has been invoked before the failure. -/
theorem cb_result_fatal (api : memcached_api) (in_msg : memcached_msg)
    (hrange : ∀ c ∈ api.pending_cmd_list.toList, c.opaque_id < UINT32_SIZE)
    (hmsg : in_msg.opaque_id < UINT32_SIZE)
    (h : (∀ c ∈ api.pending_cmd_list.toList, c.opaque_id ≠ in_msg.opaque_id)
      ∨ ∃ cmd, find_cmd api in_msg.opaque_id = some cmd ∧ cmd.sent_command ≠ in_msg.opcode) :
    (cb_result api in_msg = Outcome.core_me "Unable to find such value" []
        ∨ cb_result api in_msg = Outcome.core_me "Got a result with unexpected opcode" [])
      ∧ ∀ msg events, cb_result api in_msg = Outcome.core_me msg events →
          callbacks_invoked events = [] := by
  have hmain : cb_result api in_msg = Outcome.core_me "Unable to find such value" []
      ∨ cb_result api in_msg = Outcome.core_me "Got a result with unexpected opcode" [] := by
    rcases h with h | ⟨cmd, hfind, hne⟩
    · left
      have hnone : find_cmd api in_msg.opaque_id = none := by
        unfold find_cmd
        apply RB_FIND_eq_none
        intro c hc hz
        rw [cmp_cmd_eq_zero_iff _ _ hmsg (hrange c hc)] at hz
        exact h c hc hz.symm
      unfold cb_result
      rw [hnone]
    · right
      unfold cb_result
      rw [hfind]
      dsimp only
      rw [if_pos (fun heq => hne heq.symm)]
  refine ⟨hmain, ?_⟩
  intro msg events hout
  rcases hmain with h1 | h1 <;>
    (rw [h1] at hout
     simp only [Outcome.core_me.injEq] at hout
     rw [← hout.2]
     rfl)

/-- Witness for `cb_result_fatal`: on `api_three`, a response that carries the
unknown token 9. -/
theorem cb_result_fatal_witness :
    (cb_result api_three { response_add with opaque_id := 9 }
          = Outcome.core_me "Unable to find such value" []
        ∨ cb_result api_three { response_add with opaque_id := 9 }
          = Outcome.core_me "Got a result with unexpected opcode" [])
      ∧ ∀ msg events,
          cb_result api_three { response_add with opaque_id := 9 } = Outcome.core_me msg events →
          callbacks_invoked events = [] :=
  cb_result_fatal api_three { response_add with opaque_id := 9 }
    (by unfold api_three UINT32_SIZE; decide) (by unfold UINT32_SIZE response_add; decide)
    (Or.inl (by unfold api_three response_add; decide))

/-- C6: for every accepted response (token found, opcode equal to the stored
kind): if the record has no callback, no callback is invoked; otherwise, for
opcode GET or GETK the get-style callback is invoked exactly once with the
response's status, key, key length, value bytes, value length and cas, and for
opcode ADD, SET or REPLACE the mutation-style callback is invoked exactly once
with the response's status and cas; in both cases it also receives the client's
user context and the per-command context stored in the record. -/
theorem cb_result_dispatch (api : memcached_api) (in_msg : memcached_msg) (cmd : pending_cmd)
    (hfind : find_cmd api in_msg.opaque_id = some cmd)
    (hopcode : in_msg.opcode = cmd.sent_command) :
    (cmd.callbacks = none →
        ∃ r, cb_result api in_msg = Outcome.returned r ∧ callback_events r.events = [])
      ∧ (∀ f, cmd.callbacks = some f →
          (in_msg.opcode = memcached_cmd.MEMCACHED_CMD_GET
            ∨ in_msg.opcode = memcached_cmd.MEMCACHED_CMD_GETK) →
          ∃ r, cb_result api in_msg = Outcome.returned r
            ∧ callback_events r.events
              = [Event.callback_get f in_msg.status in_msg.key in_msg.key_len in_msg.data
                  in_msg.data_len in_msg.cas api.user_data cmd.callback_data])
      ∧ (∀ f, cmd.callbacks = some f →
          (in_msg.opcode = memcached_cmd.MEMCACHED_CMD_ADD
            ∨ in_msg.opcode = memcached_cmd.MEMCACHED_CMD_SET
            ∨ in_msg.opcode = memcached_cmd.MEMCACHED_CMD_REPLACE) →
          ∃ r, cb_result api in_msg = Outcome.returned r
            ∧ callback_events r.events
              = [Event.callback_add f in_msg.status in_msg.cas api.user_data
                  cmd.callback_data]) := by
  obtain ⟨h1, h2, h3⟩ := cb_result_accepted api in_msg cmd hfind hopcode
  refine ⟨?_, ?_, ?_⟩
  · intro hcb
    exact ⟨_, h1 hcb, rfl⟩
  · intro f hcb hop
    exact ⟨_, h2 f hcb hop, rfl⟩
  · intro f hcb hop
    exact ⟨_, h3 f hcb hop, rfl⟩

/-- Witness for `cb_result_dispatch`: the get response `response_zero` and the
add response `response_add` on `api_three`. -/
theorem cb_result_dispatch_witness :
    (∃ r, cb_result api_three response_zero = Outcome.returned r
        ∧ callback_events r.events
          = [Event.callback_get 11 0 [102, 111, 111] 3 [98, 97, 114] 3 77 9 21])
      ∧ (∃ r, cb_result api_three response_add = Outcome.returned r
        ∧ callback_events r.events = [Event.callback_add 12 0 78 9 22]) :=
  ⟨(cb_result_dispatch api_three response_zero
      ⟨0, memcached_cmd.MEMCACHED_CMD_GETK, some 11, 21⟩ rfl rfl).2.1 11 rfl (Or.inr rfl),
   (cb_result_dispatch api_three response_add
      ⟨1, memcached_cmd.MEMCACHED_CMD_ADD, some 12, 22⟩ rfl rfl).2.2 12 rfl (Or.inl rfl)⟩


/-! ## Teardown -/

theorem free_pending_loop_callbacks (head : List pending_cmd) :
    callbacks_invoked (free_pending_loop head) = [] := by
  induction head with
  | nil => rfl
  | cons c t ih =>
    unfold free_pending_loop callbacks_invoked
    rw [List.filterMap_cons_none (by rfl)]
    exact ih

theorem free_pending_loop_freed (head : List pending_cmd) :
    freed_cmds (free_pending_loop head) = head := by
  induction head with
  | nil => rfl
  | cons c t ih =>
    unfold free_pending_loop freed_cmds
    rw [List.filterMap_cons_some (by rfl)]
    unfold freed_cmds at ih
    rw [ih]

theorem memcached_free_callbacks (hosts : List memcached_host) :
    callbacks_invoked (hosts.map (fun h => Event.memcached_free h.server_conn)) = [] := by
  induction hosts with
  | nil => rfl
  | cons h t ih =>
    unfold callbacks_invoked at ih ⊢
    rw [List.map_cons, List.filterMap_cons_none (by rfl)]
    exact ih

theorem memcached_free_freed (hosts : List memcached_host) :
    freed_cmds (hosts.map (fun h => Event.memcached_free h.server_conn)) = [] := by
  induction hosts with
  | nil => rfl
  | cons h t ih =>
    unfold freed_cmds at ih ⊢
    rw [List.map_cons, List.filterMap_cons_none (by rfl)]
    exact ih

/-- C7 (amended): for every client with n >= 0 pending requests when
`memcached_api_free` is called, teardown releases each of the n pending
records exactly once and invokes no completion callback: no pending request
receives a Shutdown status. -/
theorem memcached_api_free_drops_pending (api : memcached_api) :
    callbacks_invoked (memcached_api_free api) = []
      ∧ freed_cmds (memcached_api_free api) = api.pending_cmd_list.toList := by
  unfold memcached_api_free
  constructor
  · unfold callbacks_invoked
    rw [List.filterMap_append, List.filterMap_append]
    have h1 := memcached_free_callbacks api.host_list
    have h2 := free_pending_loop_callbacks api.pending_cmd_list.toList
    unfold callbacks_invoked at h1 h2
    rw [h1, h2]
    rfl
  · unfold freed_cmds
    rw [List.filterMap_append, List.filterMap_append]
    have h1 := memcached_free_freed api.host_list
    have h2 := free_pending_loop_freed api.pending_cmd_list.toList
    unfold freed_cmds at h1 h2
    rw [h1, h2]
    simp

/-- C7 as stated fails: `api_three` has three pending requests that each carry
a completion callback, and `memcached_api_free` invokes none of them. -/
theorem memcached_api_free_counterexample :
    api_three.pending_cmd_list.toList.map (fun c => (c.callbacks, c.callback_data))
        = [(some 11, 21), (some 12, 22), (some 13, 23)]
      ∧ callbacks_invoked (memcached_api_free api_three) = []
      ∧ ¬ teardown_faults_pending api_three := by
  refine ⟨rfl, rfl, ?_⟩
  intro h
  have h1 := h ⟨0, memcached_cmd.MEMCACHED_CMD_GETK, some 11, 21⟩
    (by simp [api_three, rb_cmds.toList]) 11 rfl
  revert h1
  decide


/-! ## Connection loss -/

theorem cb_server_error_loop_first (server : Option Nat) (hosts : List memcached_host) :
    ∀ (i : Nat) (h : memcached_host), hosts[i]? = some h → h.server_conn = server →
      (∀ j h1, j < i → hosts[j]? = some h1 → h1.server_conn ≠ server) →
      cb_server_error_loop server hosts = some (hosts.set i { h with server_conn := none }) := by
  induction hosts with
  | nil =>
    intro i h hi
    simp at hi
  | cons a t ih =>
    intro i h hi hs hfirst
    cases i with
    | zero =>
      simp only [List.getElem?_cons_zero, Option.some.injEq] at hi
      subst hi
      unfold cb_server_error_loop
      rw [if_pos hs]
      rfl
    | succ k =>
      have ha : a.server_conn ≠ server := hfirst 0 a (Nat.succ_pos k) (by simp)
      unfold cb_server_error_loop
      rw [if_neg ha]
      simp only [List.getElem?_cons_succ] at hi
      rw [ih k h hi hs (fun j h1 hj hj1 => hfirst (j + 1) h1 (Nat.succ_lt_succ hj) (by simpa using hj1))]
      rfl

theorem cb_server_error_loop_none (server : Option Nat) (hosts : List memcached_host)
    (h : ∀ a ∈ hosts, a.server_conn ≠ server) : cb_server_error_loop server hosts = none := by
  induction hosts with
  | nil => rfl
  | cons a t ih =>
    unfold cb_server_error_loop
    rw [if_neg (h a (List.mem_cons_self a t)), ih (fun b hb => h b (List.mem_cons_of_mem a hb))]
    rfl

/-- C8: when a connection-error notification names the connection `server`
and host `i` is the entry of the host table that holds it (the entry the loop
meets: no entry before it holds `server`), `cb_server_error` returns;
afterwards host `i` has no connection, its address and the number of hosts are
unchanged, every other host is unchanged, and the pending-request index and the
token counter are unchanged.  When no host holds `server` the call ends in the
fatal failure CORE_ME. -/
theorem cb_server_error_frame (api : memcached_api) (server : Option Nat) :
    (∀ (i : Nat) (h : memcached_host), api.host_list[i]? = some h → h.server_conn = server →
        (∀ j h1, j < i → api.host_list[j]? = some h1 → h1.server_conn ≠ server) →
        ∃ r, cb_server_error api server = Outcome.returned r
          ∧ r.api.host_list[i]? = some ⟨h.sockaddr, none⟩
          ∧ r.api.host_list.length = api.host_list.length
          ∧ (∀ j, j ≠ i → r.api.host_list[j]? = api.host_list[j]?)
          ∧ r.api.pending_cmd_list = api.pending_cmd_list
          ∧ r.api.sequence_id = api.sequence_id)
      ∧ ((∀ a ∈ api.host_list, a.server_conn ≠ server) →
          cb_server_error api server
            = Outcome.core_me "cb_server_error() called with an unknown server" []) := by
  constructor
  · intro i h hi hs hfirst
    have hloop := cb_server_error_loop_first server api.host_list i h hi hs hfirst
    have hlt : i < api.host_list.length := by
      rcases List.getElem?_eq_some_iff.mp hi with ⟨hlt, -⟩
      exact hlt
    unfold cb_server_error
    rw [hloop]
    refine ⟨_, rfl, ?_, ?_, ?_, rfl, rfl⟩
    · simp [hlt]
    · simp
    · intro j hj
      simp [List.getElem?_set_ne (Ne.symm hj)]
  · intro hnone
    unfold cb_server_error
    rw [cb_server_error_loop_none server api.host_list hnone]

/-- Witness for `cb_server_error_frame`: on `api_two` the second host holds
connection 2. -/
theorem cb_server_error_frame_witness :
    ∃ r, cb_server_error api_two (some 2) = Outcome.returned r
      ∧ r.api.host_list[1]? = some ⟨addr_b, none⟩
      ∧ r.api.host_list.length = api_two.host_list.length
      ∧ (∀ j, j ≠ 1 → r.api.host_list[j]? = api_two.host_list[j]?)
      ∧ r.api.pending_cmd_list = api_two.pending_cmd_list
      ∧ r.api.sequence_id = api_two.sequence_id :=
  (cb_server_error_frame api_two (some 2)).1 1 ⟨addr_b, some 2⟩ rfl rfl
    (by
      intro j h1 hj hj1
      have hj0 : j = 0 := by omega
      subst hj0
      simp only [api_two, List.getElem?_cons_zero, Option.some.injEq] at hj1
      rw [← hj1]
      decide)


/-! ## The invariant of the pending-request index -/

theorem memcached_api_init_some (env : InitEnv) (event_base : Nat)
    (hash_func : Option memcached_hash_func) (key_fun : Option memcached_keytrans_func)
    (hosts : List sockaddr) (conn_type : Nat) (user_baton : Nat) (api : memcached_api)
    (h : (memcached_api_init env event_base hash_func key_fun hosts conn_type user_baton).1
      = some api) :
    ∃ hash host_list, hash_func = some hash ∧ add_hosts env hosts = some host_list
      ∧ api = ⟨conn_type, event_base, hash, key_fun, 0, host_list, user_baton, RB_INIT⟩ := by
  unfold memcached_api_init at h
  split at h
  · simp at h
  · split at h
    · simp at h
    · split at h
      · simp at h
      · split at h
        · simp at h
        · simp only [Option.some.injEq] at h
          exact ⟨_, _, rfl, by assumption, h.symm⟩

theorem get_host_in_range (api : memcached_api) (key : List Nat) (key_len : Nat)
    (h : 0 ≤ api.cb_func_hash key (key_len : Int) api.host_list api.num_host
      ∧ api.cb_func_hash key (key_len : Int) api.host_list api.num_host < api.num_host) :
    get_host api key key_len
      = (some (api.cb_func_hash key (key_len : Int) api.host_list api.num_host).toNat, none) := by
  unfold get_host
  dsimp only
  rw [if_neg (by omega)]

theorem get_host_out_of_range (api : memcached_api) (key : List Nat) (key_len : Nat)
    (h : ¬ (0 ≤ api.cb_func_hash key (key_len : Int) api.host_list api.num_host
      ∧ api.cb_func_hash key (key_len : Int) api.host_list api.num_host < api.num_host)) :
    get_host api key key_len = (none, some EBADSLT) := by
  unfold get_host
  dsimp only
  rw [if_pos (by omega)]

theorem server_command_poxy_no_host (env : Env) (api : memcached_api) (msg msg1 : memcached_msg)
    (cb : Option Nat) (data : Nat) (hkey : apply_keytrans api msg = some msg1)
    (hhost : get_host api msg1.key msg1.key_len = (none, some EBADSLT)) :
    ∃ r, server_command_poxy env api msg cb data = Outcome.returned r ∧ r.ret = -1
      ∧ r.errno = some EBADSLT ∧ r.api = api
      ∧ (r.events = [] ∨ r.events = [Event.free_key msg1.key]) := by
  unfold server_command_poxy
  rw [hkey]
  dsimp only
  rw [hhost]
  dsimp only
  unfold fail_free_key fail
  split
  · exact ⟨_, rfl, rfl, rfl, rfl, Or.inr rfl⟩
  · exact ⟨_, rfl, rfl, rfl, rfl, Or.inl rfl⟩

/-- C10 (amended): for every sharding strategy, key and host table of n >= 0
entries, with r the strategy's result: `get_host` selects a host exactly when
0 <= r < n, and then it is entry r of `host_list`; otherwise it selects none
and sets `errno` to EBADSLT, and an issue that reaches host selection (its key
transform is absent or has succeeded) returns -1 with that error, leaves the
client as it was and calls nothing but the release of the transformed key.  In
particular, on a client initialised with 0 hosts every get that reaches host
selection fails with that error, whatever the strategy.  An issue whose key
transform fails returns -1 before host selection, with `errno` not assigned. -/
theorem get_host_selects :
    (∀ (api : memcached_api) (key : List Nat) (key_len : Nat),
        ((∃ i, (get_host api key key_len).1 = some i)
            ↔ (0 ≤ api.cb_func_hash key (key_len : Int) api.host_list api.num_host
              ∧ api.cb_func_hash key (key_len : Int) api.host_list api.num_host
                < api.num_host))
          ∧ (∀ i, (get_host api key key_len).1 = some i →
              (i : Int) = api.cb_func_hash key (key_len : Int) api.host_list api.num_host
                ∧ i < api.host_list.length)
          ∧ ((get_host api key key_len).1 = none →
              (get_host api key key_len).2 = some EBADSLT))
      ∧ (∀ (env : Env) (api : memcached_api) (req : Request) (msg1 : memcached_msg)
          (cb : Option Nat) (data : Nat), apply_keytrans api req.msg = some msg1 →
          (get_host api msg1.key msg1.key_len).1 = none →
          ∃ r, issue env api req cb data = Outcome.returned r ∧ r.ret = -1
            ∧ r.errno = some EBADSLT ∧ r.api = api
            ∧ (r.events = [] ∨ r.events = [Event.free_key msg1.key]))
      ∧ (∀ (ienv : InitEnv) (event_base : Nat) (hash_func : Option memcached_hash_func)
          (key_fun : Option memcached_keytrans_func) (conn_type user_baton : Nat)
          (api : memcached_api),
          (memcached_api_init ienv event_base hash_func key_fun [] conn_type user_baton).1
            = some api →
          ∀ (env : Env) (key : List Nat) (key_len : Nat) (msg1 : memcached_msg)
            (cb : Option Nat) (data : Nat),
            apply_keytrans api (Request.get key key_len).msg = some msg1 →
            ∃ r, memcached_api_get env api key key_len cb data = Outcome.returned r
              ∧ r.ret = -1 ∧ r.errno = some EBADSLT)
      ∧ (∀ (env : Env) (api : memcached_api) (req : Request) (cb : Option Nat) (data : Nat),
          apply_keytrans api req.msg = none →
          issue env api req cb data = Outcome.returned ⟨-1, api, [], none⟩) := by
  have hpart1 : ∀ (api : memcached_api) (key : List Nat) (key_len : Nat),
      (get_host api key key_len).1 = none → get_host api key key_len = (none, some EBADSLT) := by
    intro api key key_len hnone
    by_cases hr : 0 ≤ api.cb_func_hash key (key_len : Int) api.host_list api.num_host
        ∧ api.cb_func_hash key (key_len : Int) api.host_list api.num_host < api.num_host
    · rw [get_host_in_range api key key_len hr] at hnone
      simp at hnone
    · exact get_host_out_of_range api key key_len hr
  refine ⟨?_, ?_, ?_, ?_⟩
  · intro api key key_len
    by_cases hr : 0 ≤ api.cb_func_hash key (key_len : Int) api.host_list api.num_host
        ∧ api.cb_func_hash key (key_len : Int) api.host_list api.num_host < api.num_host
    · rw [get_host_in_range api key key_len hr]
      refine ⟨⟨fun _ => hr, fun _ => ⟨_, rfl⟩⟩, ?_, ?_⟩
      · intro i hi
        simp only [Option.some.injEq] at hi
        have hn : api.num_host = (api.host_list.length : Int) := rfl
        generalize api.cb_func_hash key (key_len : Int) api.host_list api.num_host = v at hr hi ⊢
        omega
      · intro hnone
        simp at hnone
    · rw [get_host_out_of_range api key key_len hr]
      refine ⟨⟨fun ⟨i, hi⟩ => by simp at hi, fun h => absurd h hr⟩, ?_, ?_⟩
      · intro i hi
        simp at hi
      · intro _
        rfl
  · intro env api req msg1 cb data hkey hnone
    rw [issue_eq_poxy]
    exact server_command_poxy_no_host env api req.msg msg1 cb data hkey (hpart1 _ _ _ hnone)
  · intro ienv eb hf kf ct ub api hinit env key key_len msg1 cb data hkey
    obtain ⟨hash, host_list, -, hadd, hapi⟩ := memcached_api_init_some _ _ _ _ _ _ _ _ hinit
    have hempty : api.host_list = [] := by
      rw [hapi]
      simp [add_hosts, add_hosts_loop] at hadd
      show host_list = []
      exact hadd
    have hout : get_host api msg1.key msg1.key_len = (none, some EBADSLT) := by
      apply get_host_out_of_range
      unfold memcached_api.num_host
      rw [hempty]
      simp only [List.length_nil, Nat.cast_zero]
      omega
    obtain ⟨r, hr, h1, h2, -⟩ := server_command_poxy_no_host env api
      (Request.get key key_len).msg msg1 cb data hkey hout
    exact ⟨r, hr, h1, h2⟩
  · intro env api req cb data hkey
    rw [issue_eq_poxy]
    unfold server_command_poxy
    rw [hkey]
    rfl

/-- C10 as stated fails: `api_no_key` is the client that `memcached_api_init`
returns for no host, the fixed strategy and the key transform
`memcached_key_none` on which `strndup` cannot allocate; a get for "foo" on it
returns -1 before host selection, and `errno` is not assigned: the caller
does not see EBADSLT. -/
theorem get_host_selects_counterexample :
    (memcached_api_init init_env_ok 0 (some memcached_hash_none)
        (some (memcached_key_none false)) [] 0 9).1 = some api_no_key
      ∧ api_no_key.host_list = []
      ∧ memcached_api_get env_ok api_no_key [102, 111, 111] 3 (some 7) 5
          = Outcome.returned ⟨-1, api_no_key, [], none⟩
      ∧ (none : Option Nat) ≠ some EBADSLT :=
  ⟨rfl, rfl, rfl, by decide⟩

/-- Witness for `get_host_selects`: a client initialised with no host, and a
get for "foo" on it. -/
theorem get_host_selects_witness :
    ∃ r, memcached_api_get env_ok api_zero [102, 111, 111] 3 (some 7) 5 = Outcome.returned r
      ∧ r.ret = -1 ∧ r.errno = some EBADSLT :=
  get_host_selects.2.2.1 ⟨true, true, fun _ l => l⟩ 0 (some hash_zero) none 0 9 api_zero rfl
    env_ok [102, 111, 111] 3 msg_foo (some 7) 5 rfl


/-! ## Sharding strategies -/

theorem uint32_to_int_of_small (z : Int) (h0 : 0 ≤ z) (h1 : z < 2147483648) :
    uint32_to_int z = z := by
  unfold uint32_to_int
  have hz : z % 4294967296 = z := Int.emod_eq_of_lt h0 (by omega)
  simp only [hz]
  rw [if_pos h1]

/-- C11: for every key and every host count N with 0 < N < 2^31 (a positive
`int`), `memcached_hash_crc32` returns the 32-bit checksum of the key reduced
modulo N, and the returned index i satisfies 0 <= i < N, whatever the top bit
of the checksum. -/
theorem memcached_hash_crc32_range (crc : Crc32) (key : List Nat) (key_len : Int)
    (hosts : List memcached_host) (N : Int) (hpos : 0 < N) (hint : N < 2147483648) :
    memcached_hash_crc32 crc key key_len hosts N
        = ((crc.crc32update crc.crc32init key key_len % UINT32_SIZE : Nat) : Int) % N
      ∧ 0 ≤ memcached_hash_crc32 crc key key_len hosts N
      ∧ memcached_hash_crc32 crc key key_len hosts N < N := by
  have hN : N % 4294967296 = N := Int.emod_eq_of_lt (le_of_lt hpos) (by omega)
  have h0 := Int.emod_nonneg
    ((crc.crc32update crc.crc32init key key_len % UINT32_SIZE : Nat) : Int) (ne_of_gt hpos)
  have h1 := Int.emod_lt_of_pos
    ((crc.crc32update crc.crc32init key key_len % UINT32_SIZE : Nat) : Int) hpos
  have heq : memcached_hash_crc32 crc key key_len hosts N
      = ((crc.crc32update crc.crc32init key key_len % UINT32_SIZE : Nat) : Int) % N := by
    unfold memcached_hash_crc32
    dsimp only
    rw [if_neg (ne_of_gt hpos), hN]
    exact uint32_to_int_of_small _ h0 (by omega)
  rw [heq]
  exact ⟨rfl, h0, h1⟩

/-- Witness for `memcached_hash_crc32_range`: the checksum 0xFFFFFFFF and 7
hosts give index 3. -/
theorem memcached_hash_crc32_range_witness :
    memcached_hash_crc32 crc_top [102, 111, 111] 3 [] 7
        = ((crc_top.crc32update crc_top.crc32init [102, 111, 111] 3 % UINT32_SIZE : Nat) : Int) % 7
      ∧ 0 ≤ memcached_hash_crc32 crc_top [102, 111, 111] 3 [] 7
      ∧ memcached_hash_crc32 crc_top [102, 111, 111] 3 [] 7 < 7 :=
  memcached_hash_crc32_range crc_top [102, 111, 111] 3 [] 7 (by decide) (by decide)

/-- C12 (amended): for host_count == 0 and every key, `memcached_hash_none`
and `memcached_hash_crc32` each return 0, the value that is index 0 for a
non-empty host set; "no host" is signalled by `get_host`, which rejects that 0
on an empty host table and sets `errno` to EBADSLT. -/
theorem hash_zero_hosts (crc : Crc32) (key : List Nat) (key_len : Nat)
    (hosts : List memcached_host) :
    memcached_hash_none key (key_len : Int) hosts 0 = 0
      ∧ memcached_hash_crc32 crc key (key_len : Int) hosts 0 = 0
      ∧ ∀ api : memcached_api, api.host_list = [] →
          (api.cb_func_hash = memcached_hash_none
            ∨ api.cb_func_hash = memcached_hash_crc32 crc) →
          get_host api key key_len = (none, some EBADSLT) := by
  refine ⟨rfl, rfl, ?_⟩
  intro api hempty hhash
  apply get_host_out_of_range
  have hn : api.num_host = 0 := by
    unfold memcached_api.num_host
    rw [hempty]
    rfl
  rw [hn]
  omega

/-- C12 as stated fails: for the key "foo" both strategies return for 0 hosts
the very value 0 that they return as index 0 for one host. -/
theorem hash_zero_hosts_counterexample :
    memcached_hash_none [102, 111, 111] 3 [] 0 = 0
      ∧ memcached_hash_none [102, 111, 111] 3 [⟨addr_a, none⟩] 1 = 0
      ∧ memcached_hash_crc32 crc_sum [102, 111, 111] 3 [] 0 = 0
      ∧ memcached_hash_crc32 crc_sum [102, 111, 111] 3 [⟨addr_a, none⟩] 1 = 0 := by
  refine ⟨rfl, rfl, rfl, ?_⟩
  decide

/-- C13 (amended): for every key and every host set, an issue on a client
configured with `memcached_hash_ketama` that reaches host selection fails
without routing the request to any host: it returns -1, calls nothing of the
transport and leaves the client as it was; the failure the caller observes is
the one of a strategy that reports no eligible host, `errno` = EBADSLT. -/
theorem ketama_issue_fails (env : Env) (api : memcached_api) (req : Request)
    (msg1 : memcached_msg) (cb : Option Nat) (data : Nat)
    (hhash : api.cb_func_hash = memcached_hash_ketama)
    (hkey : apply_keytrans api req.msg = some msg1) :
    ∃ r, issue env api req cb data = Outcome.returned r ∧ r.ret = -1
      ∧ r.errno = some EBADSLT ∧ r.api = api
      ∧ (r.events = [] ∨ r.events = [Event.free_key msg1.key]) := by
  have hout : get_host api msg1.key msg1.key_len = (none, some EBADSLT) := by
    apply get_host_out_of_range
    rw [hhash]
    intro h
    have h0 := h.1
    unfold memcached_hash_ketama at h0
    omega
  rw [issue_eq_poxy]
  exact server_command_poxy_no_host env api req.msg msg1 cb data hkey hout

/-- C13 as stated fails: a get on a client with one host and the
consistent-hash placeholder, and a get on a client with no host and the fixed
strategy, end in the same failure: -1, `errno` = EBADSLT, no event. -/
theorem ketama_issue_counterexample :
    issue env_ok api_ketama (Request.get [102, 111, 111] 3) (some 7) 5
        = Outcome.returned ⟨-1, api_ketama, [], some EBADSLT⟩
      ∧ issue env_ok api_empty (Request.get [102, 111, 111] 3) (some 7) 5
        = Outcome.returned ⟨-1, api_empty, [], some EBADSLT⟩ :=
  ⟨rfl, rfl⟩

/-- Witness for `ketama_issue_fails`: a get for "foo" on `api_ketama`. -/
theorem ketama_issue_fails_witness :
    ∃ r, issue env_ok api_ketama (Request.get [102, 111, 111] 3) (some 7) 5 = Outcome.returned r
      ∧ r.ret = -1 ∧ r.errno = some EBADSLT ∧ r.api = api_ketama
      ∧ (r.events = [] ∨ r.events = [Event.free_key msg_foo.key]) :=
  ketama_issue_fails env_ok api_ketama (Request.get [102, 111, 111] 3) msg_foo (some 7) 5
    rfl rfl


/-! ## The order of the host table -/

theorem cmp_inet4_eq_zero (a b : sockaddr) : cmp_inet4 a b = 0 := by
  unfold cmp_inet4 uint32_to_int
  simp

theorem cmp_servers_inet_left (x y : memcached_host) (hx : x.sockaddr.sa_family = AF_INET) :
    cmp_servers x y = (AF_INET : Int) - (y.sockaddr.sa_family : Int) := by
  unfold cmp_servers
  dsimp only
  split
  · rw [hx]
  · rename_i h
    rw [cmp_inet4_eq_zero]
    rw [hx] at h
    omega

theorem cmp_servers_inet_right (x y : memcached_host) (hx : x.sockaddr.sa_family ≠ AF_INET)
    (hy : y.sockaddr.sa_family = AF_INET) :
    cmp_servers x y = (x.sockaddr.sa_family : Int) - (AF_INET : Int) := by
  unfold cmp_servers
  dsimp only
  rw [hy, if_pos]
  intro h
  apply hx
  omega

theorem swap_hosts_family (a b x : memcached_host)
    (ha : a.sockaddr.sa_family = AF_INET) (hb : b.sockaddr.sa_family = AF_INET) :
    (swap_hosts a b x).sockaddr.sa_family = x.sockaddr.sa_family := by
  unfold swap_hosts
  split
  · rename_i h
    rw [h, ha, hb]
  · split
    · rename_i h
      rw [h, ha, hb]
    · rfl

theorem swap_hosts_of_not_inet (a b x : memcached_host)
    (ha : a.sockaddr.sa_family = AF_INET) (hb : b.sockaddr.sa_family = AF_INET)
    (hx : x.sockaddr.sa_family ≠ AF_INET) : swap_hosts a b x = x := by
  unfold swap_hosts
  rw [if_neg (fun h => hx (by rw [h, ha])), if_neg (fun h => hx (by rw [h, hb]))]

/-- The comparator cannot tell two IPv4 hosts apart: exchanging them changes no
comparison. -/
theorem cmp_servers_swap_hosts (a b : memcached_host)
    (ha : a.sockaddr.sa_family = AF_INET) (hb : b.sockaddr.sa_family = AF_INET)
    (x y : memcached_host) :
    cmp_servers (swap_hosts a b x) (swap_hosts a b y) = cmp_servers x y := by
  by_cases hx : x.sockaddr.sa_family = AF_INET
  · rw [cmp_servers_inet_left _ _ (by rw [swap_hosts_family a b x ha hb]; exact hx),
      cmp_servers_inet_left _ _ hx, swap_hosts_family a b y ha hb]
  · rw [swap_hosts_of_not_inet a b x ha hb hx]
    by_cases hy : y.sockaddr.sa_family = AF_INET
    · rw [cmp_servers_inet_right _ _ hx (by rw [swap_hosts_family a b y ha hb]; exact hy),
        cmp_servers_inet_right _ _ hx hy]
    · rw [swap_hosts_of_not_inet a b y ha hb hy]

theorem perm_pair (a b : memcached_host) (hab : a ≠ b) (l : List memcached_host)
    (h : l.Perm [a, b]) : l = [a, b] ∨ l = [b, a] := by
  have hlen := h.length_eq
  have hma : a ∈ l := h.mem_iff.mpr (by simp)
  have hmb : b ∈ l := h.mem_iff.mpr (by simp)
  match l, hlen, hma, hmb with
  | [x, y], _, hma, hmb =>
    simp only [List.mem_cons, List.mem_singleton, List.not_mem_nil, or_false] at hma hmb
    rcases hma with h1 | h1 <;> rcases hmb with h2 | h2
    · exact absurd (h1.trans h2.symm) hab
    · left
      rw [h1, h2]
    · right
      rw [h1, h2]
    · exact absurd (h1.trans h2.symm) hab

theorem insert_sorted_perm (cmp : memcached_host → memcached_host → Int) (x : memcached_host)
    (l : List memcached_host) : (insert_sorted cmp x l).Perm (x :: l) := by
  induction l with
  | nil => exact List.Perm.refl _
  | cons y t ih =>
    unfold insert_sorted
    split
    · exact List.Perm.refl _
    · exact (List.Perm.cons y ih).trans (List.Perm.swap x y t)

theorem insertion_qsort_perm (cmp : memcached_host → memcached_host → Int)
    (l : List memcached_host) : (insertion_qsort cmp l).Perm l := by
  induction l with
  | nil => exact List.Perm.refl _
  | cons x t ih =>
    unfold insertion_qsort
    exact (insert_sorted_perm cmp x _).trans (List.Perm.cons x ih)

theorem insert_sorted_map (cmp : memcached_host → memcached_host → Int)
    (f : memcached_host → memcached_host) (hf : ∀ x y, cmp (f x) (f y) = cmp x y)
    (x : memcached_host) (l : List memcached_host) :
    insert_sorted cmp (f x) (l.map f) = (insert_sorted cmp x l).map f := by
  induction l with
  | nil => rfl
  | cons y t ih =>
    simp only [List.map_cons, insert_sorted, hf]
    split
    · rfl
    · rw [ih]
      rfl

theorem insertion_qsort_comparison_based : comparison_based insertion_qsort := by
  intro cmp f l hf
  induction l with
  | nil => rfl
  | cons x t ih =>
    simp only [List.map_cons, insertion_qsort]
    rw [ih, insert_sorted_map cmp f hf]


theorem add_hosts_inet_pair (env : InitEnv) (a b : sockaddr) (ha : a.sa_family = AF_INET)
    (hb : b.sa_family = AF_INET) :
    add_hosts env [a, b]
      = some (env.qsort cmp_servers
          [⟨⟨a.sa_family, a.sin_port, a.s_addr, 0, 0, 0, 0, 0⟩, none⟩,
           ⟨⟨b.sa_family, b.sin_port, b.s_addr, 0, 0, 0, 0, 0⟩, none⟩]) := by
  simp [add_hosts, add_hosts_loop, copy_sockaddr, ha, hb]

theorem memcached_api_init_ok (env : InitEnv) (h1 : env.calloc_api_ok = true)
    (h2 : env.calloc_hosts_ok = true) (event_base : Nat) (hash : memcached_hash_func)
    (key_fun : Option memcached_keytrans_func) (hosts : List sockaddr) (conn_type : Nat)
    (user_baton : Nat) (host_list : List memcached_host)
    (hadd : add_hosts env hosts = some host_list) :
    (memcached_api_init env event_base (some hash) key_fun hosts conn_type user_baton).1
      = some ⟨conn_type, event_base, hash, key_fun, 0, host_list, user_baton, RB_INIT⟩ := by
  unfold memcached_api_init
  simp [h1, h2, hadd]

/-- C14, the code at the failing input: whatever `qsort` does, as long as it
permutes its input and is comparison based, `memcached_api_init` on two
different IPv4 addresses `[a, b]` and on the permuted list `[b, a]` succeeds and
produces two different host tables, one the reverse of the other. -/
theorem init_depends_on_host_order (env : InitEnv) (halloc1 : env.calloc_api_ok = true)
    (halloc2 : env.calloc_hosts_ok = true)
    (hperm : ∀ cmp l, (env.qsort cmp l).Perm l) (hcb : comparison_based env.qsort)
    (a b : sockaddr) (ha : a.sa_family = AF_INET) (hb : b.sa_family = AF_INET)
    (hab : a.sin_port ≠ b.sin_port ∨ a.s_addr ≠ b.s_addr)
    (event_base : Nat) (hash : memcached_hash_func) (key_fun : Option memcached_keytrans_func)
    (conn_type : Nat) (user_baton : Nat) :
    ∃ api1 api2,
      (memcached_api_init env event_base (some hash) key_fun [a, b] conn_type user_baton).1
          = some api1
        ∧ (memcached_api_init env event_base (some hash) key_fun [b, a] conn_type user_baton).1
          = some api2
        ∧ api2.host_list = api1.host_list.reverse
        ∧ api1.host_list ≠ api2.host_list := by
  let A : memcached_host := ⟨⟨a.sa_family, a.sin_port, a.s_addr, 0, 0, 0, 0, 0⟩, none⟩
  let B : memcached_host := ⟨⟨b.sa_family, b.sin_port, b.s_addr, 0, 0, 0, 0, 0⟩, none⟩
  have hA : A.sockaddr.sa_family = AF_INET := ha
  have hB : B.sockaddr.sa_family = AF_INET := hb
  have hAB : A ≠ B := by
    intro h
    have h1 : a.sin_port = b.sin_port := congrArg (fun x => x.sockaddr.sin_port) h
    have h2 : a.s_addr = b.s_addr := congrArg (fun x => x.sockaddr.s_addr) h
    rcases hab with h3 | h3
    · exact h3 h1
    · exact h3 h2
  have hmap : [A, B].map (swap_hosts A B) = [B, A] := by
    simp [swap_hosts]
  have hq : env.qsort cmp_servers [B, A]
      = (env.qsort cmp_servers [A, B]).map (swap_hosts A B) := by
    rw [← hmap]
    exact hcb cmp_servers (swap_hosts A B) [A, B] (cmp_servers_swap_hosts A B hA hB)
  refine ⟨_, _,
    memcached_api_init_ok env halloc1 halloc2 event_base hash key_fun [a, b] conn_type
      user_baton _ (add_hosts_inet_pair env a b ha hb),
    memcached_api_init_ok env halloc1 halloc2 event_base hash key_fun [b, a] conn_type
      user_baton _ (add_hosts_inet_pair env b a hb ha), ?_, ?_⟩
  · show env.qsort cmp_servers [B, A] = (env.qsort cmp_servers [A, B]).reverse
    rw [hq]
    rcases perm_pair A B hAB _ (hperm cmp_servers [A, B]) with h | h <;> rw [h] <;>
      simp [swap_hosts]
  · show env.qsort cmp_servers [A, B] ≠ env.qsort cmp_servers [B, A]
    rw [hq]
    rcases perm_pair A B hAB _ (hperm cmp_servers [A, B]) with h | h <;> rw [h] <;>
      simp [swap_hosts, hAB, Ne.symm hAB]

/-- Witness for `init_depends_on_host_order`: the hosts 10.0.0.1:11211 and
10.0.0.2:11211 of the spec's example, given in either order. -/
theorem init_depends_on_host_order_witness :
    ∃ api1 api2,
      (memcached_api_init init_env_ok 0 (some memcached_hash_none) none [addr_a, addr_b] 0 9).1
          = some api1
        ∧ (memcached_api_init init_env_ok 0 (some memcached_hash_none) none [addr_b, addr_a]
            0 9).1 = some api2
        ∧ api2.host_list = api1.host_list.reverse
        ∧ api1.host_list ≠ api2.host_list :=
  init_depends_on_host_order init_env_ok rfl rfl (insertion_qsort_perm)
    insertion_qsort_comparison_based addr_a addr_b rfl rfl (Or.inr (by decide)) 0
    memcached_hash_none none 0 9

/-- C19, the code at the failing input: for the IPv4 hosts 10.0.0.1:11211 and
10.0.0.2:11211 `cmp_servers` returns 0 although the addresses differ; and for
two IPv6 hosts whose first address words differ by 2^31 it returns a negative
value in both directions. -/
theorem cmp_servers_not_an_order :
    cmp_servers ⟨addr_a, none⟩ ⟨addr_b, none⟩ = 0
      ∧ addr_a.sa_family = addr_b.sa_family ∧ addr_a.s_addr ≠ addr_b.s_addr
      ∧ cmp_servers ⟨addr6_hi, none⟩ ⟨addr6_lo, none⟩ = -2147483648
      ∧ cmp_servers ⟨addr6_lo, none⟩ ⟨addr6_hi, none⟩ = -2147483648 := by
  refine ⟨?_, rfl, by decide, ?_, ?_⟩ <;> decide


/-! ## Construction of the client -/

theorem copy_sockaddr_eq_none_iff (h : sockaddr) :
    copy_sockaddr h = none ↔ (h.sa_family ≠ AF_INET ∧ h.sa_family ≠ AF_INET6) := by
  unfold copy_sockaddr
  split
  · simp_all
  · split <;> simp_all

theorem add_hosts_loop_eq_none_iff (hosts : List sockaddr) :
    add_hosts_loop hosts = none
      ↔ ∃ h ∈ hosts, h.sa_family ≠ AF_INET ∧ h.sa_family ≠ AF_INET6 := by
  induction hosts with
  | nil => simp [add_hosts_loop]
  | cons h t ih =>
    unfold add_hosts_loop
    cases hc : copy_sockaddr h with
    | none =>
      have := (copy_sockaddr_eq_none_iff h).mp hc
      simp only [List.mem_cons, exists_eq_or_imp, true_iff]
      exact Or.inl this
    | some a =>
      have hne : ¬ (h.sa_family ≠ AF_INET ∧ h.sa_family ≠ AF_INET6) := by
        intro hh
        rw [(copy_sockaddr_eq_none_iff h).mpr hh] at hc
        cases hc
      simp only [Option.map_eq_none', List.mem_cons, exists_eq_or_imp]
      rw [ih]
      constructor
      · intro hh
        exact Or.inr hh
      · intro hh
        rcases hh with hh | hh
        · exact absurd hh hne
        · exact hh

theorem add_hosts_loop_some (hosts : List sockaddr) :
    ∀ l, add_hosts_loop hosts = some l →
      l.length = hosts.length ∧ ∀ h ∈ l, h.server_conn = none := by
  induction hosts with
  | nil =>
    intro l hl
    simp only [add_hosts_loop, Option.some.injEq] at hl
    rw [← hl]
    simp
  | cons h t ih =>
    intro l hl
    unfold add_hosts_loop at hl
    cases hc : copy_sockaddr h with
    | none =>
      rw [hc] at hl
      cases hl
    | some a =>
      rw [hc] at hl
      cases ht : add_hosts_loop t with
      | none =>
        rw [ht] at hl
        cases hl
      | some t1 =>
        rw [ht] at hl
        simp only [Option.map_some', Option.some.injEq] at hl
        obtain ⟨hlen, hconn⟩ := ih t1 ht
        rw [← hl]
        refine ⟨by simp [hlen], ?_⟩
        intro x hx
        simp only [List.mem_cons] at hx
        rcases hx with hx | hx
        · rw [hx]
        · exact hconn x hx

theorem add_hosts_some (env : InitEnv) (hperm : ∀ cmp l, (env.qsort cmp l).Perm l)
    (hosts : List sockaddr) (l : List memcached_host) (h : add_hosts env hosts = some l) :
    l.length = hosts.length ∧ ∀ x ∈ l, x.server_conn = none := by
  unfold add_hosts at h
  cases hl : add_hosts_loop hosts with
  | none =>
    rw [hl] at h
    cases h
  | some l0 =>
    rw [hl] at h
    obtain ⟨hlen, hconn⟩ := add_hosts_loop_some hosts l0 hl
    dsimp only at h
    split at h
    · simp only [Option.some.injEq] at h
      have hp := hperm cmp_servers l0
      rw [h] at hp
      refine ⟨by rw [hp.length_eq, hlen], ?_⟩
      intro x hx
      exact hconn x (hp.mem_iff.mp hx)
    · simp only [Option.some.injEq] at h
      rw [← h]
      exact ⟨hlen, hconn⟩

theorem add_hosts_eq_none_iff (env : InitEnv) (hosts : List sockaddr) :
    add_hosts env hosts = none ↔ add_hosts_loop hosts = none := by
  unfold add_hosts
  cases hl : add_hosts_loop hosts with
  | none => simp
  | some l0 =>
    dsimp only
    split <;> simp

/-- C18: when the two allocations succeed (and `qsort` permutes its input),
`memcached_api_init` returns no client if and only if the sharding strategy is
unset or some supplied address has a family other than AF_INET and AF_INET6;
when it returns a client, the client has exactly as many hosts as addresses
were supplied, every host has no connection, the pending-request index is empty
and the token counter is 0. -/
theorem memcached_api_init_spec (env : InitEnv) (halloc1 : env.calloc_api_ok = true)
    (halloc2 : env.calloc_hosts_ok = true) (hperm : ∀ cmp l, (env.qsort cmp l).Perm l)
    (event_base : Nat) (hash_func : Option memcached_hash_func)
    (key_fun : Option memcached_keytrans_func) (hosts : List sockaddr) (conn_type : Nat)
    (user_baton : Nat) :
    ((memcached_api_init env event_base hash_func key_fun hosts conn_type user_baton).1 = none
        ↔ (hash_func = none
          ∨ ∃ h ∈ hosts, h.sa_family ≠ AF_INET ∧ h.sa_family ≠ AF_INET6))
      ∧ ∀ api,
          (memcached_api_init env event_base hash_func key_fun hosts conn_type user_baton).1
            = some api →
          api.host_list.length = hosts.length
            ∧ (∀ h ∈ api.host_list, h.server_conn = none)
            ∧ api.pending_cmd_list = RB_INIT
            ∧ api.sequence_id = 0 := by
  constructor
  · rw [← add_hosts_loop_eq_none_iff, ← add_hosts_eq_none_iff env]
    unfold memcached_api_init
    cases hash_func with
    | none => simp [halloc1]
    | some hash =>
      cases hadd : add_hosts env hosts with
      | none => simp [halloc1, halloc2]
      | some l => simp [halloc1, halloc2]
  · intro api h
    obtain ⟨hash, host_list, -, hadd, hapi⟩ := memcached_api_init_some _ _ _ _ _ _ _ _ h
    obtain ⟨hlen, hconn⟩ := add_hosts_some env hperm hosts host_list hadd
    rw [hapi]
    exact ⟨hlen, hconn, rfl, rfl⟩

/-- Witness for `memcached_api_init_spec`: the two IPv4 hosts of the spec's
example, the fixed strategy, and a libc whose `qsort` is insertion sort. -/
theorem memcached_api_init_spec_witness :
    ((memcached_api_init init_env_ok 0 (some memcached_hash_none) none [addr_a, addr_b] 0 9).1
          = none
        ↔ ((some memcached_hash_none : Option memcached_hash_func) = none
          ∨ ∃ h ∈ [addr_a, addr_b], h.sa_family ≠ AF_INET ∧ h.sa_family ≠ AF_INET6))
      ∧ ∀ api,
          (memcached_api_init init_env_ok 0 (some memcached_hash_none) none [addr_a, addr_b]
            0 9).1 = some api →
          api.host_list.length = [addr_a, addr_b].length
            ∧ (∀ h ∈ api.host_list, h.server_conn = none)
            ∧ api.pending_cmd_list = RB_INIT
            ∧ api.sequence_id = 0 :=
  memcached_api_init_spec init_env_ok rfl rfl insertion_qsort_perm 0 (some memcached_hash_none)
    none [addr_a, addr_b] 0 9


/-! ## Key transforms -/

theorem takeWhile_of_all (p : Nat → Bool) (l : List Nat) (h : ∀ b ∈ l, p b = true) :
    l.takeWhile p = l := by
  induction l with
  | nil => rfl
  | cons a t ih =>
    rw [List.takeWhile_cons, h a (List.mem_cons_self a t),
      ih (fun b hb => h b (List.mem_cons_of_mem a hb))]
    rfl

/-- On a key without zero byte among its first `n` bytes `strndup` copies those
bytes. -/
theorem strndup_no_zero (s : List Nat) (n : Nat) (h : ∀ b ∈ s.take n, b ≠ 0) :
    strndup s n = s.take n ++ [0] := by
  unfold strndup
  rw [takeWhile_of_all _ _ (fun b hb => by simpa using h b hb)]

/-- What `memcached_key_none` does on a key without zero byte among its `len`
bytes: the output buffer starts with the key's bytes and the length is `len`. -/
theorem memcached_key_none_no_zero (in_key : List Nat) (in_len : Nat)
    (hlen : in_len ≤ in_key.length) (h : ∀ b ∈ in_key.take in_len, b ≠ 0) :
    ∃ out_key, memcached_key_none true in_key in_len = some (out_key, in_len)
      ∧ out_key.take in_len = in_key.take in_len := by
  refine ⟨in_key.take in_len ++ [0], ?_, ?_⟩
  · unfold memcached_key_none
    simp [strndup_no_zero in_key in_len h]
  · rw [List.take_append_of_le_length (by simp [hlen])]
    simp

/-- C17, the code at the failing input: for the 3-byte key 'a', 0, 'b'
`memcached_key_none` returns the length 3 with a buffer that holds only 'a'
and the terminating zero: the key's third byte is not in the output. -/
theorem memcached_key_none_zero_byte :
    memcached_key_none true [97, 0, 98] 3 = some ([97, 0], 3)
      ∧ ([97, 0] : List Nat).take 3 ≠ ([97, 0, 98] : List Nat).take 3 := by
  constructor
  · rfl
  · decide

/-- What `memcached_key_len250` does on a key of at most 250 bytes without zero
byte among the first 250 bytes of its buffer: the output buffer starts with the
key's bytes and the length is `len`. -/
theorem memcached_key_len250_no_zero_short (in_key : List Nat) (in_len : Nat)
    (hlen : in_len ≤ in_key.length) (h250 : in_len ≤ 250)
    (h : ∀ b ∈ in_key.take 250, b ≠ 0) :
    ∃ out_key, memcached_key_len250 true in_key in_len = some (out_key, in_len)
      ∧ out_key.take in_len = in_key.take in_len := by
  refine ⟨in_key.take 250 ++ [0], ?_, ?_⟩
  · unfold memcached_key_len250
    simp [strndup_no_zero in_key 250 h, h250]
  · rw [List.take_append_of_le_length (by simp [hlen, h250]), List.take_take]
    simp [h250]

/-- C15, the code at the failing input: for the 3-byte key 'a', 0, 'b'
`memcached_key_len250` returns the length 3 with a buffer that holds only 'a'
and the terminating zero; and for a key of 302 bytes whose second byte is zero
it returns a key of 1 byte, not the first 250 bytes. -/
theorem memcached_key_len250_zero_byte :
    memcached_key_len250 true [97, 0, 98] 3 = some ([97, 0], 3)
      ∧ ([97, 0] : List Nat).take 3 ≠ ([97, 0, 98] : List Nat).take 3
      ∧ memcached_key_len250 true (97 :: 0 :: List.replicate 300 98) 302 = some ([97, 0], 1) := by
  refine ⟨rfl, by decide, ?_⟩
  unfold memcached_key_len250 strndup strlen
  simp [List.takeWhile]

theorem nibble_low (x : Nat) : x &&& 15 = x % 16 :=
  Nat.and_pow_two_sub_one_eq_mod x 4

theorem nibble_high (x : Nat) : (x >>> 4) &&& 15 = x / 16 % 16 := by
  rw [nibble_low, Nat.shiftRight_eq_div_pow]

theorem tohex_digit (x : Nat) (h : x < 16) :
    ((48 ≤ tohex x ∧ tohex x ≤ 57) ∨ (97 ≤ tohex x ∧ tohex x ≤ 102))
      ∧ hex_value (tohex x) = x := by
  interval_cases x <;> decide

theorem md5_hex_loop_length (digest : List Nat) (n : Nat) :
    ∀ i, (md5_hex_loop digest i n).length = 2 * n := by
  induction n with
  | zero =>
    intro i
    rfl
  | succ n ih =>
    intro i
    unfold md5_hex_loop
    simp only [List.length_cons, ih]
    omega

theorem md5_hex_loop_mem (digest : List Nat) (n : Nat) :
    ∀ i, ∀ c ∈ md5_hex_loop digest i n, ∃ x, x < 16 ∧ c = tohex x := by
  induction n with
  | zero =>
    intro i c hc
    simp [md5_hex_loop] at hc
  | succ n ih =>
    intro i c hc
    unfold md5_hex_loop at hc
    simp only [List.mem_cons] at hc
    rcases hc with hc | hc | hc
    · exact ⟨_, by rw [nibble_high]; exact Nat.mod_lt _ (by norm_num), hc⟩
    · exact ⟨_, by rw [nibble_low]; exact Nat.mod_lt _ (by norm_num), hc⟩
    · exact ih (i + 1) c hc

theorem md5_hex_loop_getD (digest : List Nat) (n : Nat) :
    ∀ i k, k < n →
      (md5_hex_loop digest i n).getD (2 * k) 0 = tohex (digest.getD (i + k) 0 / 16 % 16)
        ∧ (md5_hex_loop digest i n).getD (2 * k + 1) 0 = tohex (digest.getD (i + k) 0 % 16) := by
  induction n with
  | zero =>
    intro i k hk
    omega
  | succ n ih =>
    intro i k hk
    unfold md5_hex_loop
    cases k with
    | zero =>
      rw [nibble_high, nibble_low]
      exact ⟨rfl, rfl⟩
    | succ j =>
      have h := ih (i + 1) j (by omega)
      have e1 : 2 * (j + 1) = 2 * j + 1 + 1 := by ring
      have e3 : i + (j + 1) = i + 1 + j := by ring
      rw [e1, e3]
      simp only [List.getD_cons_succ]
      exact h

/-- C16: for every key, with the digest an arbitrary function of the key,
`memcached_key_md5` (when `malloc` succeeds) returns a key of length exactly 32
in which every character is one of 0-9 or a-f, and characters 2i and 2i+1 are
the hexadecimal digits of the high nibble (byte / 16 mod 16) and the low
nibble (byte mod 16) of digest byte i, for every i in 0..15. -/
theorem memcached_key_md5_hex (MD5 : List Nat → Nat → List Nat) (in_key : List Nat)
    (in_len : Nat) :
    ∃ out_key, memcached_key_md5 true MD5 in_key in_len = some (out_key, 32)
      ∧ out_key.length = 32
      ∧ (∀ c ∈ out_key, (48 ≤ c ∧ c ≤ 57) ∨ (97 ≤ c ∧ c ≤ 102))
      ∧ ∀ i, i < 16 →
          hex_value (out_key.getD (2 * i) 0) = (MD5 in_key in_len).getD i 0 / 16 % 16
            ∧ hex_value (out_key.getD (2 * i + 1) 0) = (MD5 in_key in_len).getD i 0 % 16 := by
  refine ⟨md5_hex_loop (MD5 in_key in_len) 0 MD5_DIGEST_LENGTH, rfl, ?_, ?_, ?_⟩
  · rw [md5_hex_loop_length]
    rfl
  · intro c hc
    obtain ⟨x, hx, hcx⟩ := md5_hex_loop_mem _ _ _ c hc
    rw [hcx]
    exact (tohex_digit x hx).1
  · intro i hi
    obtain ⟨h1, h2⟩ := md5_hex_loop_getD (MD5 in_key in_len) MD5_DIGEST_LENGTH 0 i hi
    rw [h1, h2, Nat.zero_add]
    exact ⟨(tohex_digit _ (Nat.mod_lt _ (by norm_num))).2,
      (tohex_digit _ (Nat.mod_lt _ (by norm_num))).2⟩


/-- Witness for `memcached_key_md5_hex`: the digest 00 11 22 .. ff gives the
key "00112233445566778899aabbccddeeff". -/
theorem memcached_key_md5_hex_witness :
    memcached_key_md5 true md5_stub [102, 111, 112] 3 = some (key_md5_stub, 32)
      ∧ ∃ out_key, memcached_key_md5 true md5_stub [102, 111, 112] 3 = some (out_key, 32)
        ∧ out_key.length = 32
        ∧ (∀ c ∈ out_key, (48 ≤ c ∧ c ≤ 57) ∨ (97 ≤ c ∧ c ≤ 102))
        ∧ ∀ i, i < 16 →
            hex_value (out_key.getD (2 * i) 0)
                = (md5_stub [102, 111, 112] 3).getD i 0 / 16 % 16
              ∧ hex_value (out_key.getD (2 * i + 1) 0)
                = (md5_stub [102, 111, 112] 3).getD i 0 % 16 :=
  ⟨by decide, memcached_key_md5_hex md5_stub [102, 111, 112] 3⟩

/-! ## Routing of the transformed key -/

theorem connect_and_send_zero (env : Env) (api1 : memcached_api) (msg2 : memcached_msg)
    (cmd : pending_cmd) (i : Nat) (r : Result Int)
    (h : connect_and_send env api1 msg2 cmd i = Outcome.returned r) (hret : r.ret = 0) :
    ∃ conn, host_connection env api1 i = some conn
      ∧ Event.memcached_send conn msg2 ∈ r.events
      ∧ sent_messages r.events = [msg2] := by
  unfold connect_and_send at h
  unfold host_connection
  dsimp only at h
  split at h
  · rename_i conn hc
    split at h
    · have := fail_free_cmd_returned _ _ _ _ _ h
      rw [this.1] at hret
      exact absurd hret (by decide)
    · simp only [Outcome.returned.injEq] at h
      subst h
      exact ⟨conn, rfl, by simp, rfl⟩
  · rename_i hc
    split at h
    · have := fail_free_cmd_returned _ _ _ _ _ h
      rw [this.1] at hret
      exact absurd hret (by decide)
    · rename_i conn hi
      split at h
      · have := fail_free_cmd_returned _ _ _ _ _ h
        rw [this.1] at hret
        exact absurd hret (by decide)
      · simp only [Outcome.returned.injEq] at h
        subst h
        exact ⟨conn, hi, by simp, rfl⟩

/-- The path of a `server_command_poxy` that returns 0: the transformed
message, the host selected for its key, the connection of that host, and the
one message sent over it. -/
theorem server_command_poxy_routed (env : Env) (api : memcached_api) (msg : memcached_msg)
    (cb : Option Nat) (data : Nat) (r : Result Int)
    (h : server_command_poxy env api msg cb data = Outcome.returned r) (hret : r.ret = 0) :
    ∃ msg1 i e conn, apply_keytrans api msg = some msg1
      ∧ get_host api msg1.key msg1.key_len = (some i, e)
      ∧ host_connection env api i = some conn
      ∧ Event.memcached_send conn { msg1 with opaque_id := api.sequence_id } ∈ r.events
      ∧ sent_messages r.events = [{ msg1 with opaque_id := api.sequence_id }] := by
  unfold server_command_poxy at h
  split at h
  · simp only [fail, Outcome.returned.injEq] at h
    subst h
    simp at hret
  · rename_i msg1 hk
    split at h
    · have := fail_free_key_returned _ _ _ _ _ h
      rw [this.1] at hret
      exact absurd hret (by decide)
    · rename_i i e hg
      split at h
      · simp at h
      · rename_i r1 hnew
        rcases new_cmd_returned _ _ _ _ _ _ hnew with ⟨hr, -⟩ | ⟨hr, hapi, -, -⟩
        · rw [hr] at h
          have := fail_free_key_returned _ _ _ _ _ h
          rw [this.1] at hret
          exact absurd hret (by decide)
        · rw [hr, hapi] at h
          obtain ⟨conn, h1, h2, h3⟩ := connect_and_send_zero _ _ _ _ _ _ h hret
          exact ⟨msg1, i, e, conn, hk, hg, h1, h2, h3⟩

theorem apply_keytrans_key (api : memcached_api) (msg msg1 : memcached_msg)
    (h : apply_keytrans api msg = some msg1) :
    (∀ keytrans, api.cb_func_keytrans = some keytrans →
        keytrans msg.key msg.key_len = some (msg1.key, msg1.key_len))
      ∧ (api.cb_func_keytrans = none → msg1.key = msg.key ∧ msg1.key_len = msg.key_len) := by
  unfold apply_keytrans at h
  split at h
  · rename_i hn
    simp only [Option.some.injEq] at h
    rw [← h]
    refine ⟨fun kt hkt => ?_, fun _ => ⟨rfl, rfl⟩⟩
    rw [hn] at hkt
    cases hkt
  · rename_i kt0 hs
    split at h
    · cases h
    · rename_i out_key out_len hkt
      simp only [Option.some.injEq] at h
      rw [← h]
      refine ⟨fun kt hkt1 => ?_, fun hn => ?_⟩
      swap
      · rw [hs] at hn
        cases hn
      rw [hs] at hkt1
      simp only [Option.some.injEq] at hkt1
      rw [← hkt1]
      exact hkt

/-- C20: for every issue that is routed (it returns 0), with k the request's
key: when a key transform is configured, the host the request is routed to is
the one the sharding strategy selects for transform(k) with transform(k)'s
length, and the key carried by the one message handed to the transport, over
that host's connection, is transform(k); with no key transform configured both
are k itself. -/
theorem issue_routes_transformed_key (env : Env) (api : memcached_api) (req : Request)
    (cb : Option Nat) (data : Nat) (r : Result Int)
    (h : issue env api req cb data = Outcome.returned r) (hret : r.ret = 0) :
    ∃ (k1 : List Nat) (l1 : Nat) (i : Nat) (conn : Nat) (m : memcached_msg),
      (∀ keytrans, api.cb_func_keytrans = some keytrans →
          keytrans req.msg.key req.msg.key_len = some (k1, l1))
        ∧ (api.cb_func_keytrans = none → k1 = req.msg.key ∧ l1 = req.msg.key_len)
        ∧ (i : Int) = api.cb_func_hash k1 (l1 : Int) api.host_list api.num_host
        ∧ (get_host api k1 l1).1 = some i
        ∧ host_connection env api i = some conn
        ∧ Event.memcached_send conn m ∈ r.events
        ∧ sent_messages r.events = [m]
        ∧ m.key = k1 ∧ m.key_len = l1 := by
  rw [issue_eq_poxy] at h
  obtain ⟨msg1, i, e, conn, hk, hg, hc, hs, hm⟩ :=
    server_command_poxy_routed env api req.msg cb data r h hret
  obtain ⟨hk1, hk2⟩ := apply_keytrans_key api req.msg msg1 hk
  have hi : (i : Int) = api.cb_func_hash msg1.key (msg1.key_len : Int) api.host_list
      api.num_host := by
    by_cases hr : 0 ≤ api.cb_func_hash msg1.key (msg1.key_len : Int) api.host_list api.num_host
        ∧ api.cb_func_hash msg1.key (msg1.key_len : Int) api.host_list api.num_host
          < api.num_host
    · rw [get_host_in_range api msg1.key msg1.key_len hr] at hg
      simp only [Prod.mk.injEq, Option.some.injEq] at hg
      rw [← hg.1]
      exact Int.toNat_of_nonneg hr.1
    · rw [get_host_out_of_range api msg1.key msg1.key_len hr] at hg
      simp at hg
  refine ⟨msg1.key, msg1.key_len, i, conn, _, hk1, hk2, hi, ?_, hc, hs, hm, rfl, rfl⟩
  rw [hg]

/-- Witness for `issue_routes_transformed_key`: on `api_md5` the key "fop"
itself would select host 1, its transform selects host 0; the get is sent over
the connection of host 0 and carries the transformed key. -/
theorem issue_routes_transformed_key_witness :
    hash_sum [102, 111, 112] 3 api_md5.host_list 2 = 1
      ∧ ∃ (k1 : List Nat) (l1 : Nat) (i : Nat) (conn : Nat) (m : memcached_msg),
        (∀ keytrans, api_md5.cb_func_keytrans = some keytrans →
            keytrans (Request.get [102, 111, 112] 3).msg.key
              (Request.get [102, 111, 112] 3).msg.key_len = some (k1, l1))
          ∧ (api_md5.cb_func_keytrans = none →
              k1 = (Request.get [102, 111, 112] 3).msg.key
                ∧ l1 = (Request.get [102, 111, 112] 3).msg.key_len)
          ∧ (i : Int) = api_md5.cb_func_hash k1 (l1 : Int) api_md5.host_list api_md5.num_host
          ∧ (get_host api_md5 k1 l1).1 = some i
          ∧ host_connection env_ok api_md5 i = some conn
          ∧ Event.memcached_send conn m ∈ md5_result.events
          ∧ sent_messages md5_result.events = [m]
          ∧ m.key = k1 ∧ m.key_len = l1 :=
  ⟨by decide,
    issue_routes_transformed_key env_ok api_md5 (Request.get [102, 111, 112] 3) (some 7) 5
      md5_result rfl rfl⟩


/-! ## The comparator of the pending-request index -/

/-- C21: `cmp_cmd` returns 0 if and only if the two tokens are equal, for all
pairs of 32-bit tokens; and on tokens that all lie within a window of fewer
than 2^31 consecutive counter values (wrap-around included) it is a strict
total order that agrees with issuance order: its sign is that of the difference
of the positions in the window, exchanging the arguments negates it, two
different positions never compare equal, and it is transitive. -/
theorem cmp_cmd_order :
    (∀ c1 c2 : pending_cmd, c1.opaque_id < UINT32_SIZE → c2.opaque_id < UINT32_SIZE →
        (cmp_cmd c1 c2 = 0 ↔ c1.opaque_id = c2.opaque_id))
      ∧ (∀ (start w i j k : Nat) (c1 c2 c3 : pending_cmd), w < 2147483648 →
          i < w → j < w → k < w →
          c1.opaque_id = token_at start i → c2.opaque_id = token_at start j →
          c3.opaque_id = token_at start k →
          (cmp_cmd c1 c2 < 0 ↔ i < j)
            ∧ (cmp_cmd c1 c2 = 0 ↔ i = j)
            ∧ (0 < cmp_cmd c1 c2 ↔ j < i)
            ∧ cmp_cmd c2 c1 = -cmp_cmd c1 c2
            ∧ (cmp_cmd c1 c2 < 0 → cmp_cmd c2 c3 < 0 → cmp_cmd c1 c3 < 0)) := by
  constructor
  · intro c1 c2 h1 h2
    exact cmp_cmd_eq_zero_iff c1 c2 h1 h2
  · intro start w i j k c1 c2 c3 hw hi hj hk h1 h2 h3
    rw [cmp_cmd_window start w i j c1 c2 hw hi hj h1 h2,
      cmp_cmd_window start w j i c2 c1 hw hj hi h2 h1,
      cmp_cmd_window start w j k c2 c3 hw hj hk h2 h3,
      cmp_cmd_window start w i k c1 c3 hw hi hk h1 h3]
    refine ⟨?_, ?_, ?_, ?_, ?_⟩ <;> omega

/-- Witness for `cmp_cmd_order`: the window of the three tokens 4294967295, 0
and 1 issued around the wrap of the counter; the comparator places them in
that order. -/
theorem cmp_cmd_order_witness :
    (cmp_cmd (cmd_with_token 4294967295) (cmd_with_token 0) < 0 ↔ 0 < 1)
      ∧ (cmp_cmd (cmd_with_token 4294967295) (cmd_with_token 0) = 0 ↔ 0 = 1)
      ∧ (0 < cmp_cmd (cmd_with_token 4294967295) (cmd_with_token 0) ↔ 1 < 0)
      ∧ cmp_cmd (cmd_with_token 0) (cmd_with_token 4294967295)
          = -cmp_cmd (cmd_with_token 4294967295) (cmd_with_token 0)
      ∧ (cmp_cmd (cmd_with_token 4294967295) (cmd_with_token 0) < 0 →
          cmp_cmd (cmd_with_token 0) (cmd_with_token 1) < 0 →
          cmp_cmd (cmd_with_token 4294967295) (cmd_with_token 1) < 0) :=
  cmp_cmd_order.2 4294967295 3 0 1 2 (cmd_with_token 4294967295) (cmd_with_token 0)
    (cmd_with_token 1) (by decide) (by decide) (by decide) (by decide) (by decide) (by decide)
    (by decide)

/-- Outside such a window the comparator is no order: the tokens 0 and 2^31
are each reported smaller than the other. -/
theorem cmp_cmd_half_range :
    cmp_cmd (cmd_with_token 0) (cmd_with_token 2147483648) < 0
      ∧ cmp_cmd (cmd_with_token 2147483648) (cmd_with_token 0) < 0 := by
  constructor <;> decide


end Libeventmc
